import Mathlib

/-!
Verification development for the nexus knowledge-base server.

The TypeScript sources under server/src are shallowly embedded: every
service and repository method that the properties below mention is
translated into a pure Lean function. Persistent stores (one JSON file
per key) become association lists threaded through an explicit KBState
record; wall-clock readings (new Date()) become an explicit now : Nat
argument measured in milliseconds; uuidv4() outputs become explicit
newId arguments; fallible methods return Except AppError. Keyed
file-system writes are modelled by putArticle / putVersion / putLock,
which replace the first record carrying the key and append otherwise,
exactly the observable behaviour of writeFile on the keyed path. The
random uuid primary key of a version snapshot is not modelled (snapshots
are addressed by their (articleId, version) key, as in the source);
NotFoundError keeps its two constructor arguments instead of the
formatted message string.
-/

namespace Nexus

/-! ## Data model (server/src/models) -/

/-- Lifecycle state of an article, from models/Article.ts. -/
inductive ArticleStatus
  | draft
  | published
  | archived
  | deleted
deriving DecidableEq, Repr

/-- Content format of the article body, from models/Article.ts. -/
inductive ContentFormat
  | markdown
  | richtext
deriving DecidableEq, Repr

/-- User role, from the models file declaring UserRole. -/
inductive UserRole
  | reader
  | actor
  | author
  | editor
deriving DecidableEq, Repr

/-- Authenticated user. Fields not consulted by the embedded code
(email, avatarUrl, createdAt) are dropped. -/
structure User where
  id : String
  displayName : String
  role : UserRole
deriving DecidableEq, Repr

/-- Fine-grained permission names, one constructor per string literal of
the Permission union type (article:view:published etc.). -/
inductive Permission
  | articleViewPublished
  | articleViewDraftOwn
  | articleViewDraftAll
  | articleCreate
  | articleEditOwn
  | articleEditAll
  | articleDeleteOwn
  | articleDeleteAll
  | articlePublishOwn
  | articlePublishAll
  | articleArchive
  | articleRestoreOwn
  | articleRestoreAll
  | articleVersionView
  | articleVersionRestoreOwn
  | articleVersionRestoreAll
  | commentView
  | commentCreate
  | commentEditOwn
  | commentEditAll
  | commentDeleteOwn
  | commentDeleteAll
  | searchBasic
  | searchAdvanced
deriving DecidableEq, Repr

/-- The static role to permission-set table ROLE_PERMISSIONS. -/
def ROLE_PERMISSIONS : UserRole → List Permission
  | .reader =>
    [.articleViewPublished, .articleVersionView, .commentView, .searchBasic]
  | .actor =>
    [.articleViewPublished, .articleVersionView, .commentView,
     .commentCreate, .commentEditOwn, .commentDeleteOwn, .searchBasic]
  | .author =>
    [.articleViewPublished, .articleViewDraftOwn, .articleCreate,
     .articleEditOwn, .articleDeleteOwn, .articlePublishOwn,
     .articleRestoreOwn, .articleVersionView, .articleVersionRestoreOwn,
     .commentView, .commentCreate, .commentEditOwn, .commentDeleteOwn,
     .searchBasic, .searchAdvanced]
  | .editor =>
    [.articleViewPublished, .articleViewDraftOwn, .articleViewDraftAll,
     .articleCreate, .articleEditOwn, .articleEditAll, .articleDeleteOwn,
     .articleDeleteAll, .articlePublishOwn, .articlePublishAll,
     .articleArchive, .articleRestoreOwn, .articleRestoreAll,
     .articleVersionView, .articleVersionRestoreOwn,
     .articleVersionRestoreAll, .commentView, .commentCreate,
     .commentEditOwn, .commentEditAll, .commentDeleteOwn,
     .commentDeleteAll, .searchBasic, .searchAdvanced]

/-- Pure permission lookup hasPermission(user, permission). -/
def hasPermission (u : User) (p : Permission) : Bool :=
  (ROLE_PERMISSIONS u.role).contains p

/-- Main Article record, from models/Article.ts. Timestamps are
milliseconds; metadata.viewCount is inlined as viewCount. -/
structure Article where
  id : String
  briefTitle : String
  detailedDescription : String
  category : String
  tags : List String
  relatedArticles : List String
  status : ArticleStatus
  authorId : String
  authorName : String
  createdAt : Nat
  updatedAt : Nat
  publishedAt : Option Nat
  expirationDate : Option Nat
  version : Nat
  lockedBy : Option String
  lockedByName : Option String
  lockedAt : Option Nat
  viewCount : Nat
  contentFormat : ContentFormat
  lastViewedBy : Option String
  lastViewedAt : Option Nat
deriving DecidableEq, Repr

/-- Immutable version snapshot, from the models file declaring
ArticleVersion. The random uuid field id is not modelled. -/
structure ArticleVersion where
  articleId : String
  version : Nat
  briefTitle : String
  detailedDescription : String
  category : String
  tags : List String
  relatedArticles : List String
  status : ArticleStatus
  changedBy : String
  changedByName : String
  changedAt : Nat
  changeReason : Option String
  changeSummary : String
deriving DecidableEq, Repr

/-- Edit lock record, from models/Lock.ts. -/
structure ArticleLock where
  articleId : String
  lockedBy : String
  lockedByName : String
  lockedAt : Nat
  expiresAt : Nat
deriving DecidableEq, Repr

/-- Lock status response, from models/Lock.ts. -/
structure LockStatusResponse where
  isLocked : Bool
  lock : Option ArticleLock
  canEdit : Bool
  message : Option String
deriving DecidableEq, Repr

/-- Lock acquisition result, from models/Lock.ts. -/
structure LockAcquisitionResult where
  success : Bool
  lock : Option ArticleLock
  message : String
deriving DecidableEq, Repr

/-- Category record, from the models file declaring Category. The count
is an Int because updateArticleCount computes max(0, current + delta)
over a signed delta. -/
structure Category where
  id : String
  name : String
  order : Nat
  articleCount : Int
  createdAt : Nat
deriving DecidableEq, Repr

/-- Comment record, from the models file declaring Comment. -/
structure Comment where
  id : String
  articleId : String
  authorId : String
  authorName : String
  content : String
  createdAt : Nat
  updatedAt : Option Nat
  isEdited : Bool
deriving DecidableEq, Repr

/-- Error taxonomy of utils errors.ts: each AppError subclass becomes a
constructor. notFound carries (resource, identifier) instead of the
formatted message. -/
inductive AppError
  | badRequest (message : String)
  | unauthorized (message : String)
  | forbidden (message : String)
  | notFound (resource : String) (identifier : String)
  | conflict (message : String)
  | validationFailed (errors : List (String × String))
  | internal (message : String)
deriving DecidableEq, Repr

/-- The persistent state of the server: one keyed store per entity, as
laid out under the data directory. -/
structure KBState where
  articles : List Article
  versions : List ArticleVersion
  locks : List ArticleLock
  categories : List Category
  comments : List Comment
deriving DecidableEq, Repr

/-- Decidable equality for results, so concrete runs of the embedded
services can be checked by evaluation. -/
instance {e a : Type} [DecidableEq e] [DecidableEq a] : DecidableEq (Except e a)
  | .error x, .error y => by
    cases decEq x y with
    | isTrue h => exact isTrue (by rw [h])
    | isFalse h => exact isFalse (by intro hh; cases hh; exact h rfl)
  | .error x, .ok y => isFalse (by intro hh; cases hh)
  | .ok x, .error y => isFalse (by intro hh; cases hh)
  | .ok x, .ok y => by
    cases decEq x y with
    | isTrue h => exact isTrue (by rw [h])
    | isFalse h => exact isFalse (by intro hh; cases hh; exact h rfl)

/-! ## Keyed-store primitives -/

/-- Lookup of an article by id: the cache Map.get and the per-id JSON
file read of FileArticleRepository.findById. -/
def findArticle (articles : List Article) (id : String) : Option Article :=
  articles.find? (fun a => a.id == id)

/-- Write of an article file plus cache Map.set: replaces the record
with the same id, appends when the id is new. -/
def putArticle : List Article → Article → List Article
  | [], a => [a]
  | b :: rest, a => if b.id = a.id then a :: rest else b :: putArticle rest a

/-- Lookup of a version snapshot by its (articleId, version) key, the
read of versions/articleId/vN.json in FileVersionRepository.getVersion. -/
def getVersionRec (versions : List ArticleVersion) (articleId : String)
    (version : Nat) : Option ArticleVersion :=
  versions.find? (fun v => v.articleId == articleId && v.version == version)

/-- Write of versions/articleId/vN.json: replaces the record with the
same (articleId, version) key, appends when the key is new. -/
def putVersion : List ArticleVersion → ArticleVersion → List ArticleVersion
  | [], v => [v]
  | w :: rest, v =>
    if w.articleId = v.articleId ∧ w.version = v.version then v :: rest
    else w :: putVersion rest v

/-- Lock-file read of FileLockRepository.loadLock. -/
def loadLock (locks : List ArticleLock) (articleId : String) : Option ArticleLock :=
  locks.find? (fun l => l.articleId == articleId)

/-- Lock-file write of FileLockRepository.saveLock. -/
def putLock : List ArticleLock → ArticleLock → List ArticleLock
  | [], l => [l]
  | m :: rest, l => if m.articleId = l.articleId then l :: rest else m :: putLock rest l

/-- Lock-file unlink of FileLockRepository.deleteLock. -/
def removeLock (locks : List ArticleLock) (articleId : String) : List ArticleLock :=
  locks.filter (fun l => !(l.articleId == articleId))

/-- Category lookup by exact name, the categories.find call inside
FileCategoryRepository.updateArticleCount. -/
def findCategory (categories : List Category) (name : String) : Option Category :=
  categories.find? (fun c => c.name == name)

/-! ## FileLockRepository -/

/-- Default lock lifetime: config.locking.timeoutMinutes = 30, exposed
as timeoutMs = timeoutMinutes * 60 * 1000. -/
def lockTimeoutMs : Nat := 30 * 60 * 1000

namespace FileLockRepository

/-- Expiry test: new Date(lock.expiresAt) < new Date(). -/
def isExpired (lock : ArticleLock) (now : Nat) : Bool :=
  lock.expiresAt < now

/-- Construction of a fresh lock record with expiry now + timeoutMs. -/
def createLock (articleId userId userName : String) (now : Nat) : ArticleLock :=
  { articleId := articleId, lockedBy := userId, lockedByName := userName,
    lockedAt := now, expiresAt := now + lockTimeoutMs }

/-- FileLockRepository.acquireLock. Returns the result object together
with the lock store after the call. -/
def acquireLock (locks : List ArticleLock) (articleId userId userName : String)
    (now : Nat) : LockAcquisitionResult × List ArticleLock :=
  match loadLock locks articleId with
  | some existingLock =>
    if !isExpired existingLock now then
      if existingLock.lockedBy == userId then
        let renewedLock := createLock articleId userId userName now
        ({ success := true, lock := some renewedLock,
           message := "Lock renewed successfully" },
         putLock locks renewedLock)
      else
        ({ success := false, lock := some existingLock,
           message := "Article is currently being edited by " ++
             existingLock.lockedByName },
         locks)
    else
      let newLock := createLock articleId userId userName now
      ({ success := true, lock := some newLock,
         message := "Lock acquired successfully" },
       putLock locks newLock)
  | none =>
    let newLock := createLock articleId userId userName now
    ({ success := true, lock := some newLock,
       message := "Lock acquired successfully" },
     putLock locks newLock)

/-- FileLockRepository.releaseLock: true when no lock exists or the
owner releases it, false on a foreign non-owned lock. -/
def releaseLock (locks : List ArticleLock) (articleId userId : String) :
    Bool × List ArticleLock :=
  match loadLock locks articleId with
  | none => (true, locks)
  | some existingLock =>
    if existingLock.lockedBy != userId then (false, locks)
    else (true, removeLock locks articleId)

/-- FileLockRepository.getLockStatus: lazily deletes an expired lock. -/
def getLockStatus (locks : List ArticleLock) (articleId userId : String)
    (now : Nat) : LockStatusResponse × List ArticleLock :=
  match loadLock locks articleId with
  | none =>
    ({ isLocked := false, lock := none, canEdit := true, message := none }, locks)
  | some lock =>
    if isExpired lock now then
      ({ isLocked := false, lock := none, canEdit := true,
         message := some "Previous edit lock has expired" },
       removeLock locks articleId)
    else
      let canEdit := lock.lockedBy == userId
      ({ isLocked := true, lock := some lock, canEdit := canEdit,
         message := some (if canEdit then "You have the edit lock"
           else "Article is being edited by " ++ lock.lockedByName) },
       locks)

end FileLockRepository

/-! ## FileCategoryRepository -/

namespace FileCategoryRepository

/-- FileCategoryRepository.updateArticleCount: mutates the first
category whose name matches exactly, clamping the count at zero; a
missing category leaves the store untouched. -/
def updateArticleCount : List Category → String → Int → List Category
  | [], _, _ => []
  | c :: rest, categoryName, delta =>
    if c.name = categoryName then
      { c with articleCount := max 0 (c.articleCount + delta) } :: rest
    else
      c :: updateArticleCount rest categoryName delta

end FileCategoryRepository

/-! ## FileVersionRepository -/

/-- Change summary generator from the models file (generateChangeSummary). -/
def generateChangeSummary (article : Article) : String :=
  let parts : List String :=
    if article.version = 1 then ["Initial version created"]
    else ["Updated to version " ++ toString article.version]
  let parts :=
    if article.status = .published then parts ++ ["Published"]
    else if article.status = .archived then parts ++ ["Archived"]
    else parts
  String.intercalate ". " parts

/-- Snapshot constructor createVersionFromArticle: copies the content
fields and status of the article at its current version number. -/
def createVersionFromArticle (article : Article) (changedBy changedByName : String)
    (now : Nat) (changeReason : Option String) : ArticleVersion :=
  { articleId := article.id, version := article.version,
    briefTitle := article.briefTitle,
    detailedDescription := article.detailedDescription,
    category := article.category, tags := article.tags,
    relatedArticles := article.relatedArticles, status := article.status,
    changedBy := changedBy, changedByName := changedByName, changedAt := now,
    changeReason := changeReason,
    changeSummary := generateChangeSummary article }

namespace FileVersionRepository

/-- FileVersionRepository.createVersion: builds the snapshot and writes
versions/articleId/vN.json, N the current article version. The write is
unconditional: no check for an existing record under the same key. -/
def createVersion (s : KBState) (article : Article) (changedBy changedByName : String)
    (now : Nat) (changeReason : Option String) : KBState × ArticleVersion :=
  let version := createVersionFromArticle article changedBy changedByName now changeReason
  ({ s with versions := putVersion s.versions version }, version)

end FileVersionRepository

/-! ## FileArticleRepository -/

/-- Input shape shared by CreateArticleInput and UpdateArticleInput. A
field set to none models a key absent from the request body; the
create-required fields (briefTitle, detailedDescription, category) are
guaranteed present by the controller-level validateBody schema and
re-checked by the service-level validation with isCreate = true. -/
structure ArticleInput where
  briefTitle : Option String := none
  detailedDescription : Option String := none
  category : Option String := none
  tags : Option (List String) := none
  relatedArticles : Option (List String) := none
  status : Option ArticleStatus := none
  expirationDate : Option Nat := none
  contentFormat : Option ContentFormat := none
deriving DecidableEq, Repr

namespace FileArticleRepository

/-- FileArticleRepository.create: builds the record with version 1 and
writes it. The uuidv4() result is passed in as newId. -/
def create (s : KBState) (input : ArticleInput) (newId authorId authorName : String)
    (now : Nat) : KBState × Article :=
  let article : Article :=
    { id := newId,
      briefTitle := input.briefTitle.getD "",
      detailedDescription := input.detailedDescription.getD "",
      category := input.category.getD "",
      tags := input.tags.getD [],
      relatedArticles := input.relatedArticles.getD [],
      status := input.status.getD .draft,
      authorId := authorId, authorName := authorName,
      createdAt := now, updatedAt := now,
      publishedAt := if input.status = some .published then some now else none,
      expirationDate := input.expirationDate,
      version := 1,
      lockedBy := none, lockedByName := none, lockedAt := none,
      viewCount := 0,
      contentFormat := input.contentFormat.getD .richtext,
      lastViewedBy := none, lastViewedAt := none }
  ({ s with articles := putArticle s.articles article }, article)

/-- FileArticleRepository.update: spreads the present input fields over
the stored record, bumps version by one, stamps updatedAt, and sets
publishedAt when the input transitions the article to published for the
first time. UpdateArticleInput has no contentFormat key, so that field
is never spread. -/
def update (s : KBState) (id : String) (input : ArticleInput) (now : Nat) :
    Except AppError (KBState × Article) :=
  match findArticle s.articles id with
  | none => .error (.notFound "Article" id)
  | some article =>
    let updatedArticle : Article :=
      { article with
        briefTitle := input.briefTitle.getD article.briefTitle,
        detailedDescription := input.detailedDescription.getD article.detailedDescription,
        category := input.category.getD article.category,
        tags := input.tags.getD article.tags,
        relatedArticles := input.relatedArticles.getD article.relatedArticles,
        status := input.status.getD article.status,
        expirationDate :=
          match input.expirationDate with
          | some e => some e
          | none => article.expirationDate,
        updatedAt := now,
        version := article.version + 1,
        publishedAt :=
          if input.status = some .published ∧ article.publishedAt = none
          then some now else article.publishedAt }
    .ok ({ s with articles := putArticle s.articles updatedArticle }, updatedArticle)

/-- FileArticleRepository.softDelete: status to deleted via update. -/
def softDelete (s : KBState) (id : String) (now : Nat) :
    Except AppError (KBState × Article) :=
  match findArticle s.articles id with
  | none => .error (.notFound "Article" id)
  | some _ => update s id { status := some .deleted } now

/-- FileArticleRepository.restore: requires status deleted, then sets
status draft via update. -/
def restore (s : KBState) (id : String) (now : Nat) :
    Except AppError (KBState × Article) :=
  match findArticle s.articles id with
  | none => .error (.notFound "Article" id)
  | some article =>
    if article.status ≠ .deleted then .error (.internal "Article is not deleted")
    else update s id { status := some .draft } now

/-- FileArticleRepository.incrementViewCount: bumps the view counter
without touching the version field; records the reader when given. -/
def incrementViewCount (s : KBState) (id : String) (viewedBy : Option String)
    (now : Nat) : Except AppError KBState :=
  match findArticle s.articles id with
  | none => .error (.notFound "Article" id)
  | some article =>
    let bumped : Article :=
      match viewedBy with
      | some v =>
        { article with
          viewCount := article.viewCount + 1
          lastViewedBy := some v
          lastViewedAt := some now }
      | none => { article with viewCount := article.viewCount + 1 }
    .ok { s with articles := putArticle s.articles bumped }

end FileArticleRepository

/-! ## Validation constants (models/Article.ts, the Comment model) -/

namespace ARTICLE_VALIDATION

def TITLE_MIN_LENGTH : Nat := 3

def TITLE_MAX_LENGTH : Nat := 150

def DESCRIPTION_MIN_LENGTH : Nat := 10

def DESCRIPTION_MAX_LENGTH : Nat := 50000

def CATEGORY_MAX_LENGTH : Nat := 50

def TAG_MAX_LENGTH : Nat := 30

def MAX_TAGS : Nat := 10

def MAX_RELATED_ARTICLES : Nat := 10

end ARTICLE_VALIDATION

namespace COMMENT_VALIDATION

def CONTENT_MIN_LENGTH : Nat := 1

def CONTENT_MAX_LENGTH : Nat := 2000

end COMMENT_VALIDATION

/-! ## ArticleService -/

/-- ArticleService.validateArticleInput. Errors are collected as
(field, message) pairs; presence of a key in the TS input object is
isSome of the corresponding field, and the or-empty-string coalescing
of the source is getD with the empty string. String length counts
code points, matching the source on ASCII content. -/
def validateArticleInput (input : ArticleInput) (isCreate : Bool) :
    List (String × String) :=
  let errors : List (String × String) := []
  let errors :=
    if input.briefTitle.isSome || isCreate then
      let title := input.briefTitle.getD ""
      if isCreate && title == "" then
        errors ++ [("briefTitle", "Title is required")]
      else if title != "" then
        if title.length < ARTICLE_VALIDATION.TITLE_MIN_LENGTH then
          errors ++ [("briefTitle", "Title must be at least " ++
            toString ARTICLE_VALIDATION.TITLE_MIN_LENGTH ++ " characters")]
        else if title.length > ARTICLE_VALIDATION.TITLE_MAX_LENGTH then
          errors ++ [("briefTitle", "Title must not exceed " ++
            toString ARTICLE_VALIDATION.TITLE_MAX_LENGTH ++ " characters")]
        else errors
      else errors
    else errors
  let errors :=
    if input.detailedDescription.isSome || isCreate then
      let desc := input.detailedDescription.getD ""
      if isCreate && desc == "" then
        errors ++ [("detailedDescription", "Description is required")]
      else if desc != "" then
        if desc.length < ARTICLE_VALIDATION.DESCRIPTION_MIN_LENGTH then
          errors ++ [("detailedDescription", "Description must be at least " ++
            toString ARTICLE_VALIDATION.DESCRIPTION_MIN_LENGTH ++ " characters")]
        else if desc.length > ARTICLE_VALIDATION.DESCRIPTION_MAX_LENGTH then
          errors ++ [("detailedDescription", "Description must not exceed " ++
            toString ARTICLE_VALIDATION.DESCRIPTION_MAX_LENGTH ++ " characters")]
        else errors
      else errors
    else errors
  let errors :=
    if input.category.isSome || isCreate then
      let category := input.category.getD ""
      if isCreate && category == "" then
        errors ++ [("category", "Category is required")]
      else if category != "" &&
          category.length > ARTICLE_VALIDATION.CATEGORY_MAX_LENGTH then
        errors ++ [("category", "Category must not exceed " ++
          toString ARTICLE_VALIDATION.CATEGORY_MAX_LENGTH ++ " characters")]
      else errors
    else errors
  let errors :=
    match input.tags with
    | some tags =>
      if tags.length > ARTICLE_VALIDATION.MAX_TAGS then
        errors ++ [("tags", "Maximum " ++
          toString ARTICLE_VALIDATION.MAX_TAGS ++ " tags allowed")]
      else if (tags.filter
          (fun t => t.length > ARTICLE_VALIDATION.TAG_MAX_LENGTH)).length > 0 then
        errors ++ [("tags", "Tags must not exceed " ++
          toString ARTICLE_VALIDATION.TAG_MAX_LENGTH ++ " characters")]
      else errors
    | none => errors
  let errors :=
    match input.relatedArticles with
    | some relatedArticles =>
      if relatedArticles.length > ARTICLE_VALIDATION.MAX_RELATED_ARTICLES then
        errors ++ [("relatedArticles", "Maximum " ++
          toString ARTICLE_VALIDATION.MAX_RELATED_ARTICLES ++
          " related articles allowed")]
      else errors
    | none => errors
  errors

/-- Display name of an optional lock holder as interpolated by the
conflict message template (undefined prints as the word undefined). -/
def lockHolderName (lock : Option ArticleLock) : String :=
  match lock with
  | some l => l.lockedByName
  | none => "undefined"

namespace ArticleService

/-- ArticleService.create: permission check, validation, repository
create, initial snapshot, category count bump. -/
def create (s : KBState) (input : ArticleInput) (u : User) (newId : String)
    (now : Nat) : Except AppError (KBState × Article) :=
  if !hasPermission u .articleCreate then
    .error (.forbidden "You do not have permission to create articles")
  else
    let validationErrors := validateArticleInput input true
    if !validationErrors.isEmpty then .error (.validationFailed validationErrors)
    else
      let (s1, article) := FileArticleRepository.create s input newId u.id u.displayName now
      let (s2, _) := FileVersionRepository.createVersion s1 article u.id u.displayName
        now (some "Initial creation")
      let s3 := { s2 with categories :=
        FileCategoryRepository.updateArticleCount s2.categories article.category 1 }
      .ok (s3, article)

/-- ArticleService.getById: deleted articles are hidden from
non-editors as not-found, non-visible drafts are rejected as forbidden,
and published articles get their view count bumped. The source returns
the cached article object, which at that point already carries the
incremented view count, so the published branch returns the re-read
record. -/
def getById (s : KBState) (id : String) (u : User) (now : Nat) :
    Except AppError (KBState × Article) :=
  match findArticle s.articles id with
  | none => .error (.notFound "Article" id)
  | some article =>
    if article.status == .deleted && !hasPermission u .articleDeleteAll then
      .error (.notFound "Article" id)
    else if article.status == .draft && article.authorId != u.id &&
        !hasPermission u .articleViewDraftAll then
      .error (.forbidden "You do not have permission to view this draft")
    else if article.status == .published then
      match FileArticleRepository.incrementViewCount s id (some u.id) now with
      | .error e => .error e
      | .ok s1 => .ok (s1, (findArticle s1.articles id).getD article)
    else
      .ok (s, article)

/-- ArticleService.update: lookup, ownership-aware permission check,
lock check (which may lazily clean an expired lock), validation,
repository update, snapshot, category count adjustment on a category
change. -/
def update (s : KBState) (id : String) (input : ArticleInput) (u : User)
    (changeReason : Option String) (now : Nat) :
    Except AppError (KBState × Article) :=
  match findArticle s.articles id with
  | none => .error (.notFound "Article" id)
  | some article =>
    let canEditOwn := hasPermission u .articleEditOwn && article.authorId == u.id
    let canEditAll := hasPermission u .articleEditAll
    if !canEditOwn && !canEditAll then
      .error (.forbidden "You do not have permission to edit this article")
    else
      let (lockStatus, locks1) := FileLockRepository.getLockStatus s.locks id u.id now
      if lockStatus.isLocked && !lockStatus.canEdit then
        .error (.conflict ("Article is currently being edited by " ++
          lockHolderName lockStatus.lock))
      else
        let validationErrors := validateArticleInput input false
        if !validationErrors.isEmpty then .error (.validationFailed validationErrors)
        else
          let oldCategory := article.category
          let s1 := { s with locks := locks1 }
          match FileArticleRepository.update s1 id input now with
          | .error e => .error e
          | .ok (s2, updatedArticle) =>
            let (s3, _) := FileVersionRepository.createVersion s2 updatedArticle
              u.id u.displayName now changeReason
            let s4 :=
              match input.category with
              | some newCategory =>
                if newCategory ≠ oldCategory then
                  let cats1 := FileCategoryRepository.updateArticleCount
                    s3.categories oldCategory (-1)
                  let cats2 := FileCategoryRepository.updateArticleCount
                    cats1 newCategory 1
                  { s3 with categories := cats2 }
                else s3
              | none => s3
            .ok (s4, updatedArticle)

/-- ArticleService.delete (soft delete): lookup, ownership-aware
permission check, release of any lock, soft delete, category count
decrement, trash snapshot. -/
def delete (s : KBState) (id : String) (u : User) (now : Nat) :
    Except AppError (KBState × Article) :=
  match findArticle s.articles id with
  | none => .error (.notFound "Article" id)
  | some article =>
    let canDeleteOwn := hasPermission u .articleDeleteOwn && article.authorId == u.id
    let canDeleteAll := hasPermission u .articleDeleteAll
    if !canDeleteOwn && !canDeleteAll then
      .error (.forbidden "You do not have permission to delete this article")
    else
      let (_, locks1) := FileLockRepository.releaseLock s.locks id
        (article.lockedBy.getD u.id)
      let s1 := { s with locks := locks1 }
      match FileArticleRepository.softDelete s1 id now with
      | .error e => .error e
      | .ok (s2, deletedArticle) =>
        let s3 := { s2 with categories :=
          FileCategoryRepository.updateArticleCount s2.categories article.category (-1) }
        let (s4, _) := FileVersionRepository.createVersion s3 deletedArticle
          u.id u.displayName now (some "Moved to trash")
        .ok (s4, deletedArticle)

/-- ArticleService.restore (from trash): lookup, trash check,
ownership-aware permission check, repository restore to draft, category
count increment, restoration snapshot. -/
def restore (s : KBState) (id : String) (u : User) (now : Nat) :
    Except AppError (KBState × Article) :=
  match findArticle s.articles id with
  | none => .error (.notFound "Article" id)
  | some article =>
    if article.status ≠ .deleted then .error (.badRequest "Article is not in trash")
    else
      let canRestoreOwn := hasPermission u .articleRestoreOwn && article.authorId == u.id
      let canRestoreAll := hasPermission u .articleRestoreAll
      if !canRestoreOwn && !canRestoreAll then
        .error (.forbidden "You do not have permission to restore this article")
      else
        match FileArticleRepository.restore s id now with
        | .error e => .error e
        | .ok (s1, restoredArticle) =>
          let cats1 := FileCategoryRepository.updateArticleCount s1.categories
            restoredArticle.category 1
          let s2 := { s1 with categories := cats1 }
          let (s3, _) := FileVersionRepository.createVersion s2 restoredArticle
            u.id u.displayName now (some "Restored from trash")
          .ok (s3, restoredArticle)

/-- ArticleService.publish: lookup, draft-status gate, ownership-aware
permission check, repository update to published, snapshot. -/
def publish (s : KBState) (id : String) (u : User) (now : Nat) :
    Except AppError (KBState × Article) :=
  match findArticle s.articles id with
  | none => .error (.notFound "Article" id)
  | some article =>
    if article.status ≠ .draft then
      .error (.badRequest "Only draft articles can be published")
    else
      let canPublishOwn := hasPermission u .articlePublishOwn && article.authorId == u.id
      let canPublishAll := hasPermission u .articlePublishAll
      if !canPublishOwn && !canPublishAll then
        .error (.forbidden "You do not have permission to publish this article")
      else
        match FileArticleRepository.update s id { status := some .published } now with
        | .error e => .error e
        | .ok (s1, publishedArticle) =>
          let (s2, _) := FileVersionRepository.createVersion s1 publishedArticle
            u.id u.displayName now (some "Published")
          .ok (s2, publishedArticle)

/-- ArticleService.archive: editor permission gate, lookup,
published-status gate, repository update to archived, snapshot. -/
def archive (s : KBState) (id : String) (u : User) (now : Nat) :
    Except AppError (KBState × Article) :=
  if !hasPermission u .articleArchive then
    .error (.forbidden "You do not have permission to archive articles")
  else
    match findArticle s.articles id with
    | none => .error (.notFound "Article" id)
    | some article =>
      if article.status ≠ .published then
        .error (.badRequest "Only published articles can be archived")
      else
        match FileArticleRepository.update s id { status := some .archived } now with
        | .error e => .error e
        | .ok (s1, archivedArticle) =>
          let (s2, _) := FileVersionRepository.createVersion s1 archivedArticle
            u.id u.displayName now (some "Archived")
          .ok (s2, archivedArticle)

end ArticleService

/-! ## VersionService -/

namespace VersionService

/-- VersionService.restoreVersion: lookup, ownership-aware restore
permission check, target-snapshot lookup, rejection of restoring the
current version, then content copy through the article repository
(producing a new version) and a snapshot with the auto-populated
reason. -/
def restoreVersion (s : KBState) (articleId : String) (versionNumber : Nat)
    (u : User) (now : Nat) : Except AppError (KBState × ArticleVersion) :=
  match findArticle s.articles articleId with
  | none => .error (.notFound "Article" articleId)
  | some article =>
    let canRestoreOwn := hasPermission u .articleVersionRestoreOwn &&
      article.authorId == u.id
    let canRestoreAll := hasPermission u .articleVersionRestoreAll
    if !canRestoreOwn && !canRestoreAll then
      .error (.forbidden "You do not have permission to restore versions")
    else
      match getVersionRec s.versions articleId versionNumber with
      | none => .error (.notFound "Version"
          (articleId ++ "/v" ++ toString versionNumber))
      | some versionToRestore =>
        if versionNumber == article.version then
          .error (.badRequest "Cannot restore to current version")
        else
          match FileArticleRepository.update s articleId
            { briefTitle := some versionToRestore.briefTitle
              detailedDescription := some versionToRestore.detailedDescription
              category := some versionToRestore.category
              tags := some versionToRestore.tags
              relatedArticles := some versionToRestore.relatedArticles } now with
          | .error e => .error e
          | .ok (s1, restoredArticle) =>
            let (s2, newVersion) := FileVersionRepository.createVersion s1
              restoredArticle u.id u.displayName now
              (some ("Restored from version " ++ toString versionNumber))
            .ok (s2, newVersion)

end VersionService

/-! ## CommentService -/

/-- Whitespace test backing the JavaScript trim model: space, tab,
newline, carriage return, vertical tab and form feed. -/
def isTrimWhitespace (c : Char) : Bool :=
  c = ' ' || c = '\t' || c = '\n' || c = '\r' || c = '\x0b' || c = '\x0c'

/-- Model of the JavaScript String.prototype.trim call used by the
comment service, written over the character list so that it is
kernel-evaluable. -/
def jsTrim (s : String) : String :=
  ⟨((s.data.dropWhile isTrimWhitespace).reverse.dropWhile isTrimWhitespace).reverse⟩

/-- CommentService.validateCommentInput as a pure error list. -/
def validateCommentInput (content : String) : List (String × String) :=
  if (jsTrim content).length = 0 then
    [("content", "Comment content is required")]
  else if content.length < COMMENT_VALIDATION.CONTENT_MIN_LENGTH then
    [("content", "Comment must be at least " ++
      toString COMMENT_VALIDATION.CONTENT_MIN_LENGTH ++ " character")]
  else if content.length > COMMENT_VALIDATION.CONTENT_MAX_LENGTH then
    [("content", "Comment must not exceed " ++
      toString COMMENT_VALIDATION.CONTENT_MAX_LENGTH ++ " characters")]
  else []

namespace CommentService

/-- CommentService.create: permission check, article lookup,
published-only gate, validation, repository append of the trimmed
content. The uuidv4() result is passed in as newId. -/
def create (s : KBState) (articleId content : String) (u : User)
    (newId : String) (now : Nat) : Except AppError (KBState × Comment) :=
  if !hasPermission u .commentCreate then
    .error (.forbidden "You do not have permission to add comments")
  else
    match findArticle s.articles articleId with
    | none => .error (.notFound "Article" articleId)
    | some article =>
      if article.status ≠ .published then
        .error (.forbidden "Comments can only be added to published articles")
      else
        let validationErrors := validateCommentInput content
        if !validationErrors.isEmpty then .error (.validationFailed validationErrors)
        else
          let comment : Comment :=
            { id := newId, articleId := articleId, authorId := u.id,
              authorName := u.displayName, content := jsTrim content,
              createdAt := now, updatedAt := none, isEdited := false }
          .ok ({ s with comments := s.comments ++ [comment] }, comment)

end CommentService

/-! ## LockService -/

namespace LockService

/-- LockService.clearArticleLockInfo: drops the denormalized lock
fields from the cached article record. -/
def clearArticleLockInfo (s : KBState) (articleId : String) : KBState :=
  match findArticle s.articles articleId with
  | none => s
  | some article =>
    let cleared : Article :=
      { article with lockedBy := none, lockedByName := none, lockedAt := none }
    { s with articles := putArticle s.articles cleared }

/-- LockService.releaseLock: article existence check, lock status read
(with lazy expiry cleanup), forbidden unless the caller owns the lock
or holds article:edit:all (the editor force release), then repository
release on behalf of the stored holder and clearing of the denormalized
lock fields when the release went through. -/
def releaseLock (s : KBState) (articleId : String) (u : User) (now : Nat) :
    Except AppError (KBState × Bool) :=
  match findArticle s.articles articleId with
  | none => .error (.notFound "Article" articleId)
  | some _ =>
    let (lockStatus, locks1) := FileLockRepository.getLockStatus s.locks articleId u.id now
    if lockStatus.isLocked && !lockStatus.canEdit &&
        !hasPermission u .articleEditAll then
      .error (.forbidden "You cannot release a lock held by another user")
    else
      let s1 := { s with locks := locks1 }
      let (released, locks2) := FileLockRepository.releaseLock s1.locks articleId
        ((lockStatus.lock.map (fun l => l.lockedBy)).getD u.id)
      let s2 := { s1 with locks := locks2 }
      if released then .ok (clearArticleLockInfo s2 articleId, true)
      else .ok (s2, false)

end LockService

/-! ## Controller-level schema facts (the article controller) -/

/-- Status values the create endpoint body schema admits: the enum list
of the status field in the validateBody schema of articleController.create. -/
def createStatusEnum : List ArticleStatus := [.draft, .published]

/-! ## Specification-level definitions -/

/-- Version numbers currently stored for an article, in store order. -/
def versionNumbers (versions : List ArticleVersion) (id : String) : List Nat :=
  (versions.filter (fun v => v.articleId == id)).map (fun v => v.version)

/-- Number of version records stored for an article. -/
def versionCount (versions : List ArticleVersion) (id : String) : Nat :=
  (versions.filter (fun v => v.articleId == id)).length

/-- Version-store invariant: every article reachable through the keyed
lookup owns exactly the snapshots numbered 1 .. version, in ascending
store order, and every snapshot belongs to a stored article. -/
def VersionInv (articles : List Article) (versions : List ArticleVersion) : Prop :=
  (∀ a ∈ articles, findArticle articles a.id = some a →
    versionNumbers versions a.id = List.range' 1 a.version)
  ∧ (∀ v ∈ versions, ∃ a ∈ articles, v.articleId = a.id)

instance (articles : List Article) (versions : List ArticleVersion) :
    Decidable (VersionInv articles versions) := by
  unfold VersionInv
  infer_instance

/-! ## Concrete sample data, used by the closed witness theorems -/

namespace Sample

/-- A draft article owned by author-001. -/
def art1 : Article :=
  { id := "a1", briefTitle := "Reset a password",
    detailedDescription := "Steps to reset a user password",
    category := "Network", tags := [], relatedArticles := [], status := .draft,
    authorId := "author-001", authorName := "Author User",
    createdAt := 1, updatedAt := 1, publishedAt := none, expirationDate := none,
    version := 1, lockedBy := none, lockedByName := none, lockedAt := none,
    viewCount := 0, contentFormat := .richtext,
    lastViewedBy := none, lastViewedAt := none }

/-- The initial snapshot of art1. -/
def snap1 : ArticleVersion :=
  createVersionFromArticle art1 "author-001" "Author User" 1 (some "Initial creation")

/-- A category holding exactly the one non-deleted article art1. -/
def cat1 : Category :=
  { id := "c1", name := "Network", order := 7, articleCount := 1, createdAt := 0 }

/-- Base state: one draft article with its initial snapshot. -/
def s0 : KBState :=
  { articles := [art1], versions := [snap1], locks := [], categories := [cat1],
    comments := [] }

/-- A published article owned by author-001. -/
def artPub : Article :=
  { art1 with id := "a2", status := .published, publishedAt := some 2 }

/-- The initial snapshot of artPub. -/
def snapPub : ArticleVersion :=
  createVersionFromArticle artPub "author-001" "Author User" 2 (some "Initial creation")

/-- State holding one published article. -/
def sPub : KBState :=
  { articles := [artPub], versions := [snapPub], locks := [],
    categories := [{ cat1 with id := "c2" }], comments := [] }

/-- An article already at version 2. -/
def artV2 : Article :=
  { art1 with id := "a3", briefTitle := "Second title", version := 2 }

/-- The version-1 snapshot of artV2, carrying the original title. -/
def snapV2a : ArticleVersion :=
  createVersionFromArticle { artV2 with briefTitle := "First title", version := 1 }
    "author-001" "Author User" 1 (some "Initial creation")

/-- The version-2 snapshot of artV2. -/
def snapV2b : ArticleVersion :=
  createVersionFromArticle artV2 "author-001" "Author User" 3 none

/-- State holding the two-version article. -/
def sV2 : KBState :=
  { articles := [artV2], versions := [snapV2a, snapV2b], locks := [],
    categories := [cat1], comments := [] }

/-- Mock reader principal. -/
def readerU : User := { id := "reader-001", displayName := "Reader User", role := .reader }

/-- Mock actor principal. -/
def actorU : User := { id := "actor-001", displayName := "Actor User", role := .actor }

/-- Mock author principal, the owner of the sample articles. -/
def authorU : User := { id := "author-001", displayName := "Author User", role := .author }

/-- A second mock author, not the owner of the sample articles. -/
def authorB : User := { id := "author-002", displayName := "Author Two", role := .author }

/-- Mock editor principal. -/
def editorU : User := { id := "editor-001", displayName := "Editor User", role := .editor }

/-- A live lock on art1 held by authorB. -/
def lockB : ArticleLock :=
  FileLockRepository.createLock "a1" "author-002" "Author Two" 100

/-- Base state with the foreign lock lockB installed. -/
def s0Locked : KBState := { s0 with locks := [lockB] }

end Sample

/-! ## Keyed-store lemmas -/

theorem findArticle_putArticle (articles : List Article) (updated : Article)
    (id : String) :
    findArticle (putArticle articles updated) id =
      if updated.id = id then some updated else findArticle articles id := by
  induction articles with
  | nil =>
    by_cases h : updated.id = id <;> simp [putArticle, findArticle, h]
  | cons b rest ih =>
    simp only [putArticle]
    by_cases hb : b.id = updated.id
    · rw [if_pos hb]
      by_cases h : updated.id = id
      · rw [if_pos h]
        simp only [findArticle]
        rw [List.find?_cons_of_pos _ (by simpa using h)]
      · have hbid : ¬b.id = id := fun hh => h (hb.symm.trans hh)
        rw [if_neg h]
        simp only [findArticle]
        rw [List.find?_cons_of_neg _ (by simpa using h),
          List.find?_cons_of_neg _ (by simpa using hbid)]
    · rw [if_neg hb]
      by_cases hbid : b.id = id
      · have hne : ¬updated.id = id := fun hh => hb (hbid.trans hh.symm)
        rw [if_neg hne]
        simp only [findArticle]
        rw [List.find?_cons_of_pos _ (by simpa using hbid),
          List.find?_cons_of_pos _ (by simpa using hbid)]
      · simp only [findArticle]
        rw [List.find?_cons_of_neg _ (by simpa using hbid)]
        by_cases h : updated.id = id
        · rw [if_pos h]
          simpa [findArticle, h] using ih
        · rw [if_neg h]
          rw [List.find?_cons_of_neg _ (by simpa using hbid)]
          simpa [findArticle, h] using ih

theorem putArticle_mem_self (articles : List Article) (updated : Article) :
    updated ∈ putArticle articles updated := by
  induction articles with
  | nil => simp [putArticle]
  | cons b rest ih =>
    by_cases hb : b.id = updated.id <;> simp [putArticle, hb, ih]

theorem putArticle_covers_ids (articles : List Article) (updated : Article)
    (a : Article) (ha : a ∈ articles) :
    ∃ b ∈ putArticle articles updated, b.id = a.id := by
  induction articles with
  | nil => cases ha
  | cons c rest ih =>
    by_cases hc : c.id = updated.id
    · rcases List.mem_cons.mp ha with h | h
      · exact ⟨updated, by simp [putArticle, hc], by rw [h]; exact hc.symm⟩
      · exact ⟨a, by simp [putArticle, hc, h], rfl⟩
    · rcases List.mem_cons.mp ha with h | h
      · exact ⟨c, by simp [putArticle, hc], by rw [h]⟩
      · rcases ih h with ⟨b, hb, hid⟩
        exact ⟨b, by simp only [putArticle, if_neg hc, List.mem_cons]; exact Or.inr hb, hid⟩

theorem putVersion_eq_append (versions : List ArticleVersion) (v : ArticleVersion)
    (h : ∀ w ∈ versions, ¬(w.articleId = v.articleId ∧ w.version = v.version)) :
    putVersion versions v = versions ++ [v] := by
  induction versions with
  | nil => simp [putVersion]
  | cons w rest ih =>
    have hw := h w (by simp)
    simp only [putVersion, if_neg hw, List.cons_append, List.cons.injEq, true_and]
    exact ih (fun x hx => h x (by simp [hx]))

theorem mem_putVersion_self (versions : List ArticleVersion) (v : ArticleVersion) :
    v ∈ putVersion versions v := by
  induction versions with
  | nil => simp [putVersion]
  | cons w rest ih =>
    by_cases hw : w.articleId = v.articleId ∧ w.version = v.version <;>
      simp [putVersion, hw, ih]

theorem getVersionRec_putVersion (versions : List ArticleVersion)
    (v : ArticleVersion) (articleId : String) (n : Nat) :
    getVersionRec (putVersion versions v) articleId n =
      if v.articleId = articleId ∧ v.version = n then some v
      else getVersionRec versions articleId n := by
  induction versions with
  | nil =>
    by_cases h : v.articleId = articleId ∧ v.version = n
    · simp only [putVersion, getVersionRec, if_pos h]
      rw [List.find?_cons_of_pos _ (by simp [h.1, h.2])]
    · simp only [putVersion, getVersionRec, if_neg h]
      rw [List.find?_cons_of_neg _ (by simpa [Bool.and_eq_true] using h)]
  | cons w rest ih =>
    simp only [putVersion]
    by_cases hw : w.articleId = v.articleId ∧ w.version = v.version
    · rw [if_pos hw]
      by_cases h : v.articleId = articleId ∧ v.version = n
      · rw [if_pos h]
        simp only [getVersionRec]
        rw [List.find?_cons_of_pos _ (by simp [h.1, h.2])]
      · have hwkey : ¬(w.articleId = articleId ∧ w.version = n) := by
          rintro ⟨h1, h2⟩
          exact h ⟨hw.1.symm.trans h1, hw.2.symm.trans h2⟩
        rw [if_neg h]
        simp only [getVersionRec]
        rw [List.find?_cons_of_neg _ (by simpa [Bool.and_eq_true] using h),
          List.find?_cons_of_neg _ (by simpa [Bool.and_eq_true] using hwkey)]
    · rw [if_neg hw]
      by_cases hwkey : w.articleId = articleId ∧ w.version = n
      · have h : ¬(v.articleId = articleId ∧ v.version = n) := by
          rintro ⟨h1, h2⟩
          exact hw ⟨hwkey.1.trans h1.symm, hwkey.2.trans h2.symm⟩
        rw [if_neg h]
        simp only [getVersionRec]
        rw [List.find?_cons_of_pos _ (by simp [hwkey.1, hwkey.2]),
          List.find?_cons_of_pos _ (by simp [hwkey.1, hwkey.2])]
      · simp only [getVersionRec]
        rw [List.find?_cons_of_neg _ (by simpa [Bool.and_eq_true] using hwkey)]
        by_cases h : v.articleId = articleId ∧ v.version = n
        · rw [if_pos h]
          simpa [getVersionRec, h] using ih
        · rw [if_neg h]
          rw [List.find?_cons_of_neg _ (by simpa [Bool.and_eq_true] using hwkey)]
          simpa [getVersionRec, h] using ih

theorem versionNumbers_append_self (versions : List ArticleVersion)
    (v : ArticleVersion) (id : String) (h : v.articleId = id) :
    versionNumbers (versions ++ [v]) id = versionNumbers versions id ++ [v.version] := by
  simp [versionNumbers, List.filter_append, h]

theorem versionNumbers_append_other (versions : List ArticleVersion)
    (v : ArticleVersion) (id : String) (h : v.articleId ≠ id) :
    versionNumbers (versions ++ [v]) id = versionNumbers versions id := by
  simp [versionNumbers, List.filter_append, h]

theorem versionCount_append_self (versions : List ArticleVersion)
    (v : ArticleVersion) (id : String) (h : v.articleId = id) :
    versionCount (versions ++ [v]) id = versionCount versions id + 1 := by
  simp [versionCount, List.filter_append, h]

theorem versionCount_eq_length_numbers (versions : List ArticleVersion) (id : String) :
    versionCount versions id = (versionNumbers versions id).length := by
  simp [versionCount, versionNumbers]

theorem loadLock_removeLock (locks : List ArticleLock) (articleId : String) :
    loadLock (removeLock locks articleId) articleId = none := by
  rw [loadLock, List.find?_eq_none]
  intro l hl
  have := List.of_mem_filter hl
  simpa using this

/-! ## Version-invariant lemmas -/

theorem versionInv_numbers {articles : List Article} {versions : List ArticleVersion}
    (hInv : VersionInv articles versions) {id : String} {a : Article}
    (hfind : findArticle articles id = some a) :
    versionNumbers versions id = List.range' 1 a.version := by
  have hmem := List.mem_of_find?_eq_some hfind
  have hid : a.id = id := by simpa using List.find?_some hfind
  subst hid
  exact hInv.1 a hmem hfind

theorem versionInv_count {articles : List Article} {versions : List ArticleVersion}
    (hInv : VersionInv articles versions) {id : String} {a : Article}
    (hfind : findArticle articles id = some a) :
    a.version = versionCount versions id := by
  rw [versionCount_eq_length_numbers, versionInv_numbers hInv hfind,
    List.length_range']

theorem versionInv_freshKey {articles : List Article} {versions : List ArticleVersion}
    (hInv : VersionInv articles versions) {id : String} {a : Article}
    (hfind : findArticle articles id = some a) :
    ∀ w ∈ versions, ¬(w.articleId = id ∧ w.version = a.version + 1) := by
  rintro w hw ⟨hwid, hwver⟩
  have hwmem : w.version ∈ versionNumbers versions id := by
    simp only [versionNumbers, List.mem_map]
    exact ⟨w, List.mem_filter.mpr ⟨hw, by simpa using hwid⟩, rfl⟩
  rw [versionInv_numbers hInv hfind] at hwmem
  have := List.mem_range'_1.mp hwmem
  omega

/-- Core preservation step: replacing a stored article by its bumped
successor and appending the matching snapshot keeps the invariant, the
snapshot write is a plain append, and the per-article snapshot count
grows by exactly one. -/
theorem versionInv_step {articles : List Article} {versions : List ArticleVersion}
    {id : String} {a updated : Article} (snap : ArticleVersion)
    (hInv : VersionInv articles versions)
    (hfind : findArticle articles id = some a)
    (hid : updated.id = id)
    (hver : updated.version = a.version + 1)
    (hsid : snap.articleId = id)
    (hsver : snap.version = updated.version) :
    putVersion versions snap = versions ++ [snap]
    ∧ VersionInv (putArticle articles updated) (versions ++ [snap])
    ∧ versionCount (versions ++ [snap]) id = versionCount versions id + 1 := by
  have happend : putVersion versions snap = versions ++ [snap] := by
    apply putVersion_eq_append
    intro w hw hkey
    exact versionInv_freshKey hInv hfind w hw
      ⟨hkey.1.trans hsid, hkey.2.trans (hsver.trans hver)⟩
  refine ⟨happend, ⟨?_, ?_⟩, versionCount_append_self versions snap id hsid⟩
  · intro b hb hbfind
    rw [findArticle_putArticle] at hbfind
    by_cases hcase : updated.id = b.id
    · rw [if_pos hcase] at hbfind
      have hbu : updated = b := by simpa using hbfind
      subst hbu
      rw [versionNumbers_append_self versions snap updated.id
          (hsid.trans (hcase ▸ hid ▸ rfl)),
        versionInv_numbers hInv (show findArticle articles updated.id = some a by
          rw [hid]; exact hfind),
        hver, hsver, hver]
      have := List.range'_1_concat 1 a.version
      rw [this]
      simp [Nat.add_comm]
    · rw [if_neg hcase] at hbfind
      have hbmem := List.mem_of_find?_eq_some hbfind
      have hold := hInv.1 b hbmem (by
        have hbid : b.id = b.id := rfl
        exact hbfind)
      rw [versionNumbers_append_other versions snap b.id
        (fun hh => hcase ((hid.trans hsid.symm).trans hh))]
      exact hold
  · intro v hv
    rcases List.mem_append.mp hv with hv | hv
    · rcases hInv.2 v hv with ⟨a', ha', hid'⟩
      rcases putArticle_covers_ids articles updated a' ha' with ⟨b, hb, hbid⟩
      exact ⟨b, hb, hid'.trans hbid.symm⟩
    · have hv' : v = snap := by simpa using hv
      subst hv'
      exact ⟨updated, putArticle_mem_self articles updated, hsid.trans hid.symm⟩

/-- Creation step: appending a fresh article at version one together
with its first snapshot keeps the invariant. -/
theorem versionInv_create {articles : List Article} {versions : List ArticleVersion}
    {newId : String} {newArticle : Article} (snap : ArticleVersion)
    (hInv : VersionInv articles versions)
    (hfresh : findArticle articles newId = none)
    (hid : newArticle.id = newId)
    (hver : newArticle.version = 1)
    (hsid : snap.articleId = newId)
    (hsver : snap.version = 1) :
    versionCount versions newId = 0
    ∧ putVersion versions snap = versions ++ [snap]
    ∧ VersionInv (putArticle articles newArticle) (versions ++ [snap])
    ∧ versionCount (versions ++ [snap]) newId = 1 := by
  have hnone : ∀ w ∈ versions, w.articleId ≠ newId := by
    intro w hw hwid
    rcases hInv.2 w hw with ⟨a, ha, haid⟩
    rw [findArticle, List.find?_eq_none] at hfresh
    exact hfresh a ha (by simpa using (haid.symm.trans hwid))
  have hfilter : versions.filter (fun v => v.articleId == newId) = [] := by
    rw [List.filter_eq_nil_iff]
    intro w hw
    simpa using hnone w hw
  have hcount0 : versionCount versions newId = 0 := by
    rw [versionCount, hfilter]
    rfl
  have happend : putVersion versions snap = versions ++ [snap] := by
    apply putVersion_eq_append
    intro w hw hkey
    exact hnone w hw (hkey.1.trans hsid)
  refine ⟨hcount0, happend, ⟨?_, ?_⟩, ?_⟩
  · intro b hb hbfind
    rw [findArticle_putArticle] at hbfind
    by_cases hcase : newArticle.id = b.id
    · rw [if_pos hcase] at hbfind
      have hbu : newArticle = b := by simpa using hbfind
      subst hbu
      rw [versionNumbers_append_self versions snap newArticle.id
          (hsid.trans (hcase ▸ hid ▸ rfl)),
        versionNumbers, hid, hfilter]
      rw [hver, hsver]
      rfl
    · rw [if_neg hcase] at hbfind
      have hbmem := List.mem_of_find?_eq_some hbfind
      have hold := hInv.1 b hbmem hbfind
      rw [versionNumbers_append_other versions snap b.id
        (fun hh => hcase (hid.trans (hsid.symm.trans hh)))]
      exact hold
  · intro v hv
    rcases List.mem_append.mp hv with hv | hv
    · rcases hInv.2 v hv with ⟨a', ha', hid'⟩
      rcases putArticle_covers_ids articles newArticle a' ha' with ⟨b, hb, hbid⟩
      exact ⟨b, hb, hid'.trans hbid.symm⟩
    · have hv' : v = snap := by simpa using hv
      subst hv'
      exact ⟨newArticle, putArticle_mem_self articles newArticle, hsid.trans hid.symm⟩
  · rw [versionCount_append_self versions snap newId hsid, hcount0]

/-- Shape of a successful repository update: the stored article is
replaced by its one-step successor record. -/
theorem repo_update_spec (s : KBState) (id : String) (input : ArticleInput)
    (now : Nat) (a : Article) (hfind : findArticle s.articles id = some a) :
    ∃ updated, FileArticleRepository.update s id input now =
        .ok ({ s with articles := putArticle s.articles updated }, updated)
      ∧ updated.id = id
      ∧ updated.version = a.version + 1
      ∧ updated.status = input.status.getD a.status
      ∧ updated.authorId = a.authorId
      ∧ updated.briefTitle = input.briefTitle.getD a.briefTitle
      ∧ updated.detailedDescription = input.detailedDescription.getD a.detailedDescription
      ∧ updated.category = input.category.getD a.category
      ∧ updated.tags = input.tags.getD a.tags
      ∧ updated.relatedArticles = input.relatedArticles.getD a.relatedArticles
      ∧ updated.publishedAt = (if input.status = some .published ∧ a.publishedAt = none
          then some now else a.publishedAt) := by
  have haid : a.id = id := by simpa using List.find?_some hfind
  refine ⟨{ a with
      briefTitle := input.briefTitle.getD a.briefTitle
      detailedDescription := input.detailedDescription.getD a.detailedDescription
      category := input.category.getD a.category
      tags := input.tags.getD a.tags
      relatedArticles := input.relatedArticles.getD a.relatedArticles
      status := input.status.getD a.status
      expirationDate :=
        match input.expirationDate with
        | some e => some e
        | none => a.expirationDate
      updatedAt := now
      version := a.version + 1
      publishedAt :=
        if input.status = some .published ∧ a.publishedAt = none
        then some now else a.publishedAt },
    ?_, haid, rfl, rfl, rfl, rfl, rfl, rfl, rfl, rfl, rfl⟩
  unfold FileArticleRepository.update
  rw [hfind]

/-- Success path of publish: the article version grows by one and
exactly one snapshot carrying the new number is appended. -/
theorem publish_version_step (s : KBState) (id : String) (u : User) (now : Nat)
    (s' : KBState) (art : Article)
    (hInv : VersionInv s.articles s.versions)
    (h : ArticleService.publish s id u now = .ok (s', art)) :
    ∃ a, findArticle s.articles id = some a
      ∧ art.version = a.version + 1
      ∧ s'.versions = s.versions ++
          [createVersionFromArticle art u.id u.displayName now (some "Published")]
      ∧ VersionInv s'.articles s'.versions
      ∧ versionCount s'.versions id = versionCount s.versions id + 1 := by
  unfold ArticleService.publish at h
  cases hfind : findArticle s.articles id with
  | none => rw [hfind] at h; exact Except.noConfusion h
  | some article =>
    rw [hfind] at h
    dsimp only at h
    split at h
    · exact Except.noConfusion h
    split at h
    · exact Except.noConfusion h
    obtain ⟨updated, hupd, hid', hver', _⟩ :=
      repo_update_spec s id { status := some .published } now article hfind
    rw [hupd] at h
    dsimp only [FileVersionRepository.createVersion] at h
    rw [Except.ok.injEq, Prod.mk.injEq] at h
    obtain ⟨h1, h2⟩ := h
    subst h1
    subst h2
    have step := versionInv_step
      (createVersionFromArticle updated u.id u.displayName now (some "Published"))
      hInv hfind hid' hver'
      (by simp [createVersionFromArticle, hid']) (by simp [createVersionFromArticle])
    refine ⟨article, rfl, hver', step.1, ?_, ?_⟩
    · dsimp only
      rw [step.1]
      exact step.2.1
    · dsimp only
      rw [step.1]
      exact step.2.2

/-- Success path of archive, with the same version and snapshot shape
as publish. -/
theorem archive_version_step (s : KBState) (id : String) (u : User) (now : Nat)
    (s' : KBState) (art : Article)
    (hInv : VersionInv s.articles s.versions)
    (h : ArticleService.archive s id u now = .ok (s', art)) :
    ∃ a, findArticle s.articles id = some a
      ∧ art.version = a.version + 1
      ∧ s'.versions = s.versions ++
          [createVersionFromArticle art u.id u.displayName now (some "Archived")]
      ∧ VersionInv s'.articles s'.versions
      ∧ versionCount s'.versions id = versionCount s.versions id + 1 := by
  unfold ArticleService.archive at h
  split at h
  · exact Except.noConfusion h
  cases hfind : findArticle s.articles id with
  | none => rw [hfind] at h; exact Except.noConfusion h
  | some article =>
    rw [hfind] at h
    dsimp only at h
    split at h
    · exact Except.noConfusion h
    obtain ⟨updated, hupd, hid', hver', _⟩ :=
      repo_update_spec s id { status := some .archived } now article hfind
    rw [hupd] at h
    dsimp only [FileVersionRepository.createVersion] at h
    rw [Except.ok.injEq, Prod.mk.injEq] at h
    obtain ⟨h1, h2⟩ := h
    subst h1
    subst h2
    have step := versionInv_step
      (createVersionFromArticle updated u.id u.displayName now (some "Archived"))
      hInv hfind hid' hver'
      (by simp [createVersionFromArticle, hid']) (by simp [createVersionFromArticle])
    refine ⟨article, rfl, hver', step.1, ?_, ?_⟩
    · dsimp only
      rw [step.1]
      exact step.2.1
    · dsimp only
      rw [step.1]
      exact step.2.2

/-- Success path of the service update: version bump and a single
appended snapshot carrying the caller change reason. -/
theorem update_version_step (s : KBState) (id : String) (input : ArticleInput)
    (u : User) (reason : Option String) (now : Nat)
    (s' : KBState) (art : Article)
    (hInv : VersionInv s.articles s.versions)
    (h : ArticleService.update s id input u reason now = .ok (s', art)) :
    ∃ a, findArticle s.articles id = some a
      ∧ art.version = a.version + 1
      ∧ s'.versions = s.versions ++
          [createVersionFromArticle art u.id u.displayName now reason]
      ∧ VersionInv s'.articles s'.versions
      ∧ versionCount s'.versions id = versionCount s.versions id + 1 := by
  unfold ArticleService.update at h
  cases hfind : findArticle s.articles id with
  | none => rw [hfind] at h; exact Except.noConfusion h
  | some article =>
    rw [hfind] at h
    dsimp only at h
    split at h
    · exact Except.noConfusion h
    rcases hgls : FileLockRepository.getLockStatus s.locks id u.id now with ⟨lockStatus, locks1⟩
    rw [hgls] at h
    dsimp only at h
    split at h
    · exact Except.noConfusion h
    split at h
    · exact Except.noConfusion h
    obtain ⟨updated, hupd, hid', hver', _⟩ :=
      repo_update_spec { s with locks := locks1 } id input now article hfind
    rw [hupd] at h
    dsimp only [FileVersionRepository.createVersion] at h
    have step := versionInv_step
      (createVersionFromArticle updated u.id u.displayName now reason)
      hInv hfind hid' hver'
      (by simp [createVersionFromArticle, hid']) (by simp [createVersionFromArticle])
    cases hcat : input.category with
    | none =>
      rw [hcat] at h
      dsimp only at h
      rw [Except.ok.injEq, Prod.mk.injEq] at h
      obtain ⟨h1, h2⟩ := h
      subst h1
      subst h2
      refine ⟨article, rfl, hver', step.1, ?_, ?_⟩
      · dsimp only
        rw [step.1]
        exact step.2.1
      · dsimp only
        rw [step.1]
        exact step.2.2
    | some newCategory =>
      rw [hcat] at h
      dsimp only at h
      split at h <;>
        (rw [Except.ok.injEq, Prod.mk.injEq] at h
         obtain ⟨h1, h2⟩ := h
         subst h1
         subst h2
         refine ⟨article, rfl, hver', step.1, ?_, ?_⟩
         · dsimp only
           rw [step.1]
           exact step.2.1
         · dsimp only
           rw [step.1]
           exact step.2.2)

/-- Success path of soft delete: version bump and the trash snapshot. -/
theorem delete_version_step (s : KBState) (id : String) (u : User) (now : Nat)
    (s' : KBState) (art : Article)
    (hInv : VersionInv s.articles s.versions)
    (h : ArticleService.delete s id u now = .ok (s', art)) :
    ∃ a, findArticle s.articles id = some a
      ∧ art.version = a.version + 1
      ∧ s'.versions = s.versions ++
          [createVersionFromArticle art u.id u.displayName now (some "Moved to trash")]
      ∧ VersionInv s'.articles s'.versions
      ∧ versionCount s'.versions id = versionCount s.versions id + 1 := by
  unfold ArticleService.delete FileArticleRepository.softDelete at h
  cases hfind : findArticle s.articles id with
  | none => rw [hfind] at h; exact Except.noConfusion h
  | some article =>
    rw [hfind] at h
    dsimp only at h
    split at h
    · exact Except.noConfusion h
    rcases hrel : FileLockRepository.releaseLock s.locks id (article.lockedBy.getD u.id)
      with ⟨released, locks1⟩
    rw [hrel] at h
    dsimp only at h
    rw [hfind] at h
    dsimp only at h
    obtain ⟨updated, hupd, hid', hver', _⟩ :=
      repo_update_spec { s with locks := locks1 } id { status := some .deleted } now article hfind
    rw [hupd] at h
    dsimp only [FileVersionRepository.createVersion] at h
    rw [Except.ok.injEq, Prod.mk.injEq] at h
    obtain ⟨h1, h2⟩ := h
    subst h1
    subst h2
    have step := versionInv_step
      (createVersionFromArticle updated u.id u.displayName now (some "Moved to trash"))
      hInv hfind hid' hver'
      (by simp [createVersionFromArticle, hid']) (by simp [createVersionFromArticle])
    refine ⟨article, rfl, hver', step.1, ?_, ?_⟩
    · dsimp only
      rw [step.1]
      exact step.2.1
    · dsimp only
      rw [step.1]
      exact step.2.2

/-- Success path of restore from trash: version bump and the
restoration snapshot. -/
theorem restore_version_step (s : KBState) (id : String) (u : User) (now : Nat)
    (s' : KBState) (art : Article)
    (hInv : VersionInv s.articles s.versions)
    (h : ArticleService.restore s id u now = .ok (s', art)) :
    ∃ a, findArticle s.articles id = some a
      ∧ art.version = a.version + 1
      ∧ s'.versions = s.versions ++
          [createVersionFromArticle art u.id u.displayName now (some "Restored from trash")]
      ∧ VersionInv s'.articles s'.versions
      ∧ versionCount s'.versions id = versionCount s.versions id + 1 := by
  unfold ArticleService.restore FileArticleRepository.restore at h
  cases hfind : findArticle s.articles id with
  | none => rw [hfind] at h; exact Except.noConfusion h
  | some article =>
    rw [hfind] at h
    dsimp only at h
    split at h
    · exact Except.noConfusion h
    split at h
    · exact Except.noConfusion h
    split at h
    · exact Except.noConfusion h
    rename_i s2 updatedArticle heq
    obtain ⟨updated, hupd, hid', hver', _⟩ :=
      repo_update_spec s id { status := some .draft } now article hfind
    rw [hupd, Except.ok.injEq, Prod.mk.injEq] at heq
    obtain ⟨heq1, heq2⟩ := heq
    subst heq1
    subst heq2
    dsimp only [FileVersionRepository.createVersion] at h
    rw [Except.ok.injEq, Prod.mk.injEq] at h
    obtain ⟨h1, h2⟩ := h
    subst h1
    subst h2
    have step := versionInv_step
      (createVersionFromArticle updated u.id u.displayName now (some "Restored from trash"))
      hInv hfind hid' hver'
      (by simp [createVersionFromArticle, hid']) (by simp [createVersionFromArticle])
    refine ⟨article, rfl, hver', step.1, ?_, ?_⟩
    · dsimp only
      rw [step.1]
      exact step.2.1
    · dsimp only
      rw [step.1]
      exact step.2.2

/-- Success path of restore-to-version: the returned snapshot carries
the bumped version number and is the one appended record. -/
theorem restoreVersion_step (s : KBState) (id : String) (n : Nat) (u : User)
    (now : Nat) (s' : KBState) (snap : ArticleVersion)
    (hInv : VersionInv s.articles s.versions)
    (h : VersionService.restoreVersion s id n u now = .ok (s', snap)) :
    ∃ a, findArticle s.articles id = some a
      ∧ snap.version = a.version + 1
      ∧ s'.versions = s.versions ++ [snap]
      ∧ VersionInv s'.articles s'.versions
      ∧ versionCount s'.versions id = versionCount s.versions id + 1 := by
  unfold VersionService.restoreVersion at h
  cases hfind : findArticle s.articles id with
  | none => rw [hfind] at h; exact Except.noConfusion h
  | some article =>
    rw [hfind] at h
    dsimp only at h
    split at h
    · exact Except.noConfusion h
    cases hv : getVersionRec s.versions id n with
    | none => rw [hv] at h; exact Except.noConfusion h
    | some versionToRestore =>
      rw [hv] at h
      dsimp only at h
      split at h
      · exact Except.noConfusion h
      obtain ⟨updated, hupd, hid', hver', _⟩ :=
        repo_update_spec s id
          { briefTitle := some versionToRestore.briefTitle
            detailedDescription := some versionToRestore.detailedDescription
            category := some versionToRestore.category
            tags := some versionToRestore.tags
            relatedArticles := some versionToRestore.relatedArticles } now article hfind
      rw [hupd] at h
      dsimp only [FileVersionRepository.createVersion] at h
      rw [Except.ok.injEq, Prod.mk.injEq] at h
      obtain ⟨h1, h2⟩ := h
      subst h1
      subst h2
      have step := versionInv_step
        (createVersionFromArticle updated u.id u.displayName now
          (some ("Restored from version " ++ toString n)))
        hInv hfind hid' hver'
        (by simp [createVersionFromArticle, hid']) (by simp [createVersionFromArticle])
      refine ⟨article, rfl, by simp [createVersionFromArticle, hver'], step.1, ?_, ?_⟩
      · dsimp only
        rw [step.1]
        exact step.2.1
      · dsimp only
        rw [step.1]
        exact step.2.2

/-- Shape of the repository create: the fresh record at version one. -/
theorem repo_create_spec (s : KBState) (input : ArticleInput)
    (newId authorId authorName : String) (now : Nat) :
    ∃ created, FileArticleRepository.create s input newId authorId authorName now =
        ({ s with articles := putArticle s.articles created }, created)
      ∧ created.id = newId
      ∧ created.version = 1
      ∧ created.status = input.status.getD .draft
      ∧ created.publishedAt = (if input.status = some .published then some now else none)
      ∧ created.authorId = authorId := by
  exact ⟨_, rfl, rfl, rfl, rfl, rfl, rfl⟩

/-- Success path of the service create: the article starts at version
one with exactly its initial snapshot stored. -/
theorem create_version_step (s : KBState) (input : ArticleInput) (u : User)
    (newId : String) (now : Nat) (s' : KBState) (art : Article)
    (hInv : VersionInv s.articles s.versions)
    (hfresh : findArticle s.articles newId = none)
    (h : ArticleService.create s input u newId now = .ok (s', art)) :
    art.version = 1
    ∧ versionCount s.versions newId = 0
    ∧ s'.versions = s.versions ++
        [createVersionFromArticle art u.id u.displayName now (some "Initial creation")]
    ∧ VersionInv s'.articles s'.versions
    ∧ versionCount s'.versions newId = 1 := by
  unfold ArticleService.create at h
  by_cases hperm : (!hasPermission u .articleCreate) = true
  · rw [if_pos hperm] at h
    exact Except.noConfusion h
  rw [if_neg hperm] at h
  dsimp only at h
  by_cases hval : (!(validateArticleInput input true).isEmpty) = true
  · rw [if_pos hval] at h
    exact Except.noConfusion h
  rw [if_neg hval] at h
  obtain ⟨created, hc, hcid, hcver, _⟩ :=
    repo_create_spec s input newId u.id u.displayName now
  rw [hc] at h
  dsimp only [FileVersionRepository.createVersion] at h
  rw [Except.ok.injEq, Prod.mk.injEq] at h
  obtain ⟨h1, h2⟩ := h
  subst h1
  subst h2
  have step := versionInv_create
    (createVersionFromArticle created u.id u.displayName now (some "Initial creation"))
    hInv hfresh hcid hcver
    (by simp [createVersionFromArticle, hcid]) (by simp [createVersionFromArticle, hcver])
  refine ⟨hcver, step.1, step.2.1, ?_, ?_⟩
  · dsimp only
    rw [step.2.1]
    exact step.2.2.1
  · dsimp only
    rw [step.2.1]
    exact step.2.2.2

/-- A successful getById leaves the version store and every stored
version counter untouched: the view-count bump is exempt from the
versioning protocol. -/
theorem getById_version_noop (s : KBState) (id : String) (u : User) (now : Nat)
    (s' : KBState) (art : Article)
    (h : ArticleService.getById s id u now = .ok (s', art)) :
    s'.versions = s.versions
    ∧ (findArticle s'.articles id).map Article.version =
        (findArticle s.articles id).map Article.version := by
  unfold ArticleService.getById FileArticleRepository.incrementViewCount at h
  cases hfind : findArticle s.articles id with
  | none => rw [hfind] at h; exact Except.noConfusion h
  | some article =>
    rw [hfind] at h
    have haid : article.id = id := by simpa using List.find?_some hfind
    dsimp only at h
    split at h
    · exact Except.noConfusion h
    split at h
    · exact Except.noConfusion h
    split at h
    · rw [Except.ok.injEq, Prod.mk.injEq] at h
      obtain ⟨h1, h2⟩ := h
      subst h1
      subst h2
      refine ⟨rfl, ?_⟩
      dsimp only
      rw [findArticle_putArticle, if_pos haid]
      rfl
    · rw [Except.ok.injEq, Prod.mk.injEq] at h
      obtain ⟨h1, h2⟩ := h
      subst h1
      subst h2
      exact ⟨rfl, by rw [hfind]⟩

theorem findCategory_updateArticleCount_none (cats : List Category)
    (name : String) (delta : Int) (h : findCategory cats name = none) :
    FileCategoryRepository.updateArticleCount cats name delta = cats := by
  induction cats with
  | nil => simp [FileCategoryRepository.updateArticleCount]
  | cons c rest ih =>
    rw [findCategory, List.find?_eq_none] at h
    have hc : ¬c.name = name := by simpa using h c (by simp)
    rw [FileCategoryRepository.updateArticleCount, if_neg hc]
    rw [ih (by rw [findCategory, List.find?_eq_none]; intro x hx; exact h x (by simp [hx]))]

theorem findCategory_updateArticleCount (cats : List Category)
    (name : String) (delta : Int) (c : Category)
    (h : findCategory cats name = some c) :
    findCategory (FileCategoryRepository.updateArticleCount cats name delta) name =
      some { c with articleCount := max 0 (c.articleCount + delta) } := by
  induction cats with
  | nil => simp [findCategory] at h
  | cons d rest ih =>
    by_cases hd : d.name = name
    · rw [findCategory] at h
      rw [List.find?_cons_of_pos _ (by simpa using hd)] at h
      cases h
      rw [FileCategoryRepository.updateArticleCount, if_pos hd]
      rw [findCategory, List.find?_cons_of_pos _ (by simpa using hd)]
    · rw [findCategory, List.find?_cons_of_neg _ (by simpa using hd)] at h
      rw [FileCategoryRepository.updateArticleCount, if_neg hd]
      rw [findCategory, List.find?_cons_of_neg _ (by simpa using hd)]
      exact ih h

/-! ## Service-path lemmas -/

theorem hasPermission_of_role (u : User) (r : UserRole) (h : u.role = r)
    (p : Permission) :
    hasPermission u p = (ROLE_PERMISSIONS r).contains p := by
  unfold hasPermission
  rw [h]

theorem getLockStatus_none (locks : List ArticleLock) (articleId userId : String)
    (now : Nat) (h : loadLock locks articleId = none) :
    FileLockRepository.getLockStatus locks articleId userId now =
      ({ isLocked := false, lock := none, canEdit := true, message := none }, locks) := by
  unfold FileLockRepository.getLockStatus
  rw [h]

theorem getLockStatus_live (locks : List ArticleLock) (articleId userId : String)
    (now : Nat) (l : ArticleLock) (h : loadLock locks articleId = some l)
    (hexp : FileLockRepository.isExpired l now = false) :
    FileLockRepository.getLockStatus locks articleId userId now =
      ({ isLocked := true, lock := some l, canEdit := l.lockedBy == userId,
         message := some (if l.lockedBy == userId then "You have the edit lock"
           else "Article is being edited by " ++ l.lockedByName) }, locks) := by
  unfold FileLockRepository.getLockStatus
  rw [h]
  dsimp only
  rw [hexp]
  simp

theorem clearArticleLockInfo_locks (s : KBState) (articleId : String) :
    (LockService.clearArticleLockInfo s articleId).locks = s.locks := by
  unfold LockService.clearArticleLockInfo
  split <;> rfl

theorem clearArticleLockInfo_categories (s : KBState) (articleId : String) :
    (LockService.clearArticleLockInfo s articleId).categories = s.categories := by
  unfold LockService.clearArticleLockInfo
  split <;> rfl

/-- Success shape of the service soft delete, exposing everything the
category round trip needs. -/
theorem delete_success (s : KBState) (id : String) (u : User) (now : Nat)
    (a : Article)
    (hfind : findArticle s.articles id = some a)
    (hdel : ((hasPermission u .articleDeleteOwn && a.authorId == u.id)
        || hasPermission u .articleDeleteAll) = true) :
    ∃ s1 d, ArticleService.delete s id u now = .ok (s1, d)
      ∧ d.status = .deleted
      ∧ d.category = a.category
      ∧ d.authorId = a.authorId
      ∧ findArticle s1.articles id = some d
      ∧ s1.categories =
          FileCategoryRepository.updateArticleCount s.categories a.category (-1) := by
  have hcond : (!(hasPermission u .articleDeleteOwn && a.authorId == u.id) &&
      !hasPermission u .articleDeleteAll) = false := by
    rw [← Bool.not_or, hdel]
    rfl
  unfold ArticleService.delete FileArticleRepository.softDelete
  rw [hfind]
  dsimp only
  rw [hcond]
  simp only [Bool.false_eq_true, if_false]
  rcases hrel : FileLockRepository.releaseLock s.locks id (a.lockedBy.getD u.id)
    with ⟨released, locks1⟩
  dsimp only
  rw [hfind]
  dsimp only
  obtain ⟨updated, hupd, hid', hver', hstat', hauth', hbt', hdd', hcat', _⟩ :=
    repo_update_spec { s with locks := locks1 } id { status := some .deleted } now a hfind
  rw [hupd]
  dsimp only [FileVersionRepository.createVersion]
  refine ⟨_, updated, rfl, by simpa using hstat', by simpa using hcat',
    hauth', ?_, rfl⟩
  dsimp only
  rw [findArticle_putArticle, if_pos hid']

/-- Success shape of the service restore from trash, exposing
everything the category round trip needs. -/
theorem restore_success (s : KBState) (id : String) (u : User) (now : Nat)
    (a : Article)
    (hfind : findArticle s.articles id = some a)
    (hstatus : a.status = .deleted)
    (hres : ((hasPermission u .articleRestoreOwn && a.authorId == u.id)
        || hasPermission u .articleRestoreAll) = true) :
    ∃ s2 r, ArticleService.restore s id u now = .ok (s2, r)
      ∧ r.status = .draft
      ∧ r.category = a.category
      ∧ s2.categories =
          FileCategoryRepository.updateArticleCount s.categories a.category 1 := by
  have hcond : (!(hasPermission u .articleRestoreOwn && a.authorId == u.id) &&
      !hasPermission u .articleRestoreAll) = false := by
    rw [← Bool.not_or, hres]
    rfl
  have hnd : ¬(a.status ≠ ArticleStatus.deleted) := by simp [hstatus]
  unfold ArticleService.restore FileArticleRepository.restore
  rw [hfind]
  dsimp only
  simp only [if_neg hnd]
  rw [hcond]
  simp only [Bool.false_eq_true, if_false]
  obtain ⟨updated, hupd, hid', hver', hstat', hauth', hbt', hdd', hcat', _⟩ :=
    repo_update_spec s id { status := some .draft } now a hfind
  rw [hupd]
  dsimp only [FileVersionRepository.createVersion]
  refine ⟨_, updated, rfl, by simpa using hstat', by simpa using hcat', ?_⟩
  dsimp only
  rw [show updated.category = a.category by simpa using hcat']

/-! ## Claim theorems -/

/-- C2: after every successful mutating operation, the article version
field equals the number of stored version records: create persists
version one and writes exactly one snapshot, and update, publish,
archive, soft delete, restore from trash and restore to version each
bump the version by exactly one and append exactly one snapshot
carrying that new number, while the view-count bump performed by
getById changes neither the version field nor the version store. -/
theorem version_equals_snapshot_count (s : KBState)
    (hInv : VersionInv s.articles s.versions) :
    (∀ id a, findArticle s.articles id = some a →
      a.version = versionCount s.versions id)
    ∧ (∀ input u newId now s' art, findArticle s.articles newId = none →
        ArticleService.create s input u newId now = .ok (s', art) →
        art.version = 1 ∧ versionCount s.versions newId = 0
        ∧ s'.versions = s.versions ++
            [createVersionFromArticle art u.id u.displayName now (some "Initial creation")]
        ∧ VersionInv s'.articles s'.versions
        ∧ versionCount s'.versions newId = 1)
    ∧ (∀ id input u reason now s' art,
        ArticleService.update s id input u reason now = .ok (s', art) →
        ∃ a, findArticle s.articles id = some a ∧ art.version = a.version + 1
          ∧ s'.versions = s.versions ++
              [createVersionFromArticle art u.id u.displayName now reason]
          ∧ VersionInv s'.articles s'.versions
          ∧ versionCount s'.versions id = versionCount s.versions id + 1)
    ∧ (∀ id u now s' art, ArticleService.publish s id u now = .ok (s', art) →
        ∃ a, findArticle s.articles id = some a ∧ art.version = a.version + 1
          ∧ s'.versions = s.versions ++
              [createVersionFromArticle art u.id u.displayName now (some "Published")]
          ∧ VersionInv s'.articles s'.versions
          ∧ versionCount s'.versions id = versionCount s.versions id + 1)
    ∧ (∀ id u now s' art, ArticleService.archive s id u now = .ok (s', art) →
        ∃ a, findArticle s.articles id = some a ∧ art.version = a.version + 1
          ∧ s'.versions = s.versions ++
              [createVersionFromArticle art u.id u.displayName now (some "Archived")]
          ∧ VersionInv s'.articles s'.versions
          ∧ versionCount s'.versions id = versionCount s.versions id + 1)
    ∧ (∀ id u now s' art, ArticleService.delete s id u now = .ok (s', art) →
        ∃ a, findArticle s.articles id = some a ∧ art.version = a.version + 1
          ∧ s'.versions = s.versions ++
              [createVersionFromArticle art u.id u.displayName now (some "Moved to trash")]
          ∧ VersionInv s'.articles s'.versions
          ∧ versionCount s'.versions id = versionCount s.versions id + 1)
    ∧ (∀ id u now s' art, ArticleService.restore s id u now = .ok (s', art) →
        ∃ a, findArticle s.articles id = some a ∧ art.version = a.version + 1
          ∧ s'.versions = s.versions ++
              [createVersionFromArticle art u.id u.displayName now (some "Restored from trash")]
          ∧ VersionInv s'.articles s'.versions
          ∧ versionCount s'.versions id = versionCount s.versions id + 1)
    ∧ (∀ id n u now s' snap,
        VersionService.restoreVersion s id n u now = .ok (s', snap) →
        ∃ a, findArticle s.articles id = some a ∧ snap.version = a.version + 1
          ∧ s'.versions = s.versions ++ [snap]
          ∧ VersionInv s'.articles s'.versions
          ∧ versionCount s'.versions id = versionCount s.versions id + 1)
    ∧ (∀ id u now s' art, ArticleService.getById s id u now = .ok (s', art) →
        s'.versions = s.versions
        ∧ (findArticle s'.articles id).map Article.version =
            (findArticle s.articles id).map Article.version) := by
  refine ⟨?_, ?_, ?_, ?_, ?_, ?_, ?_, ?_, ?_⟩
  · intro id a hfind
    exact versionInv_count hInv hfind
  · intro input u newId now s' art hfresh h
    exact create_version_step s input u newId now s' art hInv hfresh h
  · intro id input u reason now s' art h
    exact update_version_step s id input u reason now s' art hInv h
  · intro id u now s' art h
    exact publish_version_step s id u now s' art hInv h
  · intro id u now s' art h
    exact archive_version_step s id u now s' art hInv h
  · intro id u now s' art h
    exact delete_version_step s id u now s' art hInv h
  · intro id u now s' art h
    exact restore_version_step s id u now s' art hInv h
  · intro id n u now s' snap h
    exact restoreVersion_step s id n u now s' snap hInv h
  · intro id u now s' art h
    exact getById_version_noop s id u now s' art h

/-- C2 witness: on the sample state, the stored draft satisfies the
version-count equation. -/
theorem version_equals_snapshot_count_witness :
    Sample.art1.version = versionCount Sample.s0.versions "a1" :=
  (version_equals_snapshot_count Sample.s0 (by decide)).1 "a1" Sample.art1 (by decide)

/-- C3: acquireLock creates a fresh principal-owned lock when no record
or only an expired record exists, idempotently renews a live lock held
by the same principal, and fails on a live foreign lock, reporting the
holder display name and leaving the stored lock untouched. -/
theorem acquire_lock_spec (locks : List ArticleLock)
    (articleId userId userName : String) (now : Nat) :
    (loadLock locks articleId = none →
      FileLockRepository.acquireLock locks articleId userId userName now =
        ({ success := true,
           lock := some (FileLockRepository.createLock articleId userId userName now),
           message := "Lock acquired successfully" },
         putLock locks (FileLockRepository.createLock articleId userId userName now)))
    ∧ (∀ l, loadLock locks articleId = some l →
        FileLockRepository.isExpired l now = true →
        FileLockRepository.acquireLock locks articleId userId userName now =
          ({ success := true,
             lock := some (FileLockRepository.createLock articleId userId userName now),
             message := "Lock acquired successfully" },
           putLock locks (FileLockRepository.createLock articleId userId userName now)))
    ∧ (∀ l, loadLock locks articleId = some l →
        FileLockRepository.isExpired l now = false → l.lockedBy = userId →
        FileLockRepository.acquireLock locks articleId userId userName now =
          ({ success := true,
             lock := some (FileLockRepository.createLock articleId userId userName now),
             message := "Lock renewed successfully" },
           putLock locks (FileLockRepository.createLock articleId userId userName now)))
    ∧ (∀ l, loadLock locks articleId = some l →
        FileLockRepository.isExpired l now = false → l.lockedBy ≠ userId →
        FileLockRepository.acquireLock locks articleId userId userName now =
          ({ success := false, lock := some l,
             message := "Article is currently being edited by " ++ l.lockedByName },
           locks))
    ∧ (FileLockRepository.createLock articleId userId userName now).lockedBy = userId
    ∧ (FileLockRepository.createLock articleId userId userName now).expiresAt =
        now + lockTimeoutMs := by
  refine ⟨?_, ?_, ?_, ?_, rfl, rfl⟩
  · intro hload
    unfold FileLockRepository.acquireLock
    rw [hload]
  · intro l hload hexp
    unfold FileLockRepository.acquireLock
    rw [hload]
    dsimp only
    rw [hexp]
    simp
  · intro l hload hexp hown
    unfold FileLockRepository.acquireLock
    rw [hload]
    dsimp only
    rw [hexp, hown]
    simp
  · intro l hload hexp hown
    unfold FileLockRepository.acquireLock
    rw [hload]
    dsimp only
    rw [hexp]
    have hbeq : (l.lockedBy == userId) = false := by
      simpa using hown
    rw [hbeq]
    simp

/-- C1 counterexample: on the sample state, the reader fetching a
foreign draft receives the forbidden error, not the not-found error a
nonexistent id yields. -/
theorem hidden_draft_cex :
    ArticleService.getById Sample.s0 "a1" Sample.readerU 5 =
      .error (.forbidden "You do not have permission to view this draft")
    ∧ ArticleService.getById Sample.s0 "zz" Sample.readerU 5 =
      .error (.notFound "Article" "zz")
    ∧ ArticleService.getById Sample.s0 "a1" Sample.readerU 5 ≠
      .error (.notFound "Article" "a1") := by
  decide

/-- C1 amended: fetching a draft as a principal who is neither its
author nor a holder of view-all-drafts yields a forbidden (403) error,
distinguishable from the not-found error reported for nonexistent ids
and for deleted articles hidden from non-editors. -/
theorem hidden_draft_reported_forbidden (s : KBState) (id : String) (u : User)
    (now : Nat) (a : Article)
    (hfind : findArticle s.articles id = some a)
    (hdraft : a.status = .draft)
    (hauthor : a.authorId ≠ u.id)
    (hperm : hasPermission u .articleViewDraftAll = false) :
    ArticleService.getById s id u now =
      .error (.forbidden "You do not have permission to view this draft")
    ∧ ∀ r i, ArticleService.getById s id u now ≠ .error (.notFound r i) := by
  have hbne : (a.authorId != u.id) = true := by simpa using hauthor
  have hmain : ArticleService.getById s id u now =
      .error (.forbidden "You do not have permission to view this draft") := by
    unfold ArticleService.getById
    rw [hfind]
    dsimp only
    simp [hdraft, hbne, hperm]
  refine ⟨hmain, ?_⟩
  intro r i
  rw [hmain]
  simp

/-- C1 witness: an actor fetching the foreign sample draft gets the
forbidden error. -/
theorem hidden_draft_reported_forbidden_witness :
    ArticleService.getById Sample.s0 "a1" Sample.actorU 5 =
      .error (.forbidden "You do not have permission to view this draft") :=
  (hidden_draft_reported_forbidden Sample.s0 "a1" Sample.actorU 5 Sample.art1
    (by decide) (by decide) (by decide) (by decide)).1

/-- C4: restoring to an existing version number other than the current
one copies the snapshot content fields (not the status) onto the
article, bumps the version to exactly one above its prior value, and
records a new snapshot with the auto-populated reason; restoring to the
current version number is rejected as a bad request and nothing is
changed (the embedding returns no successor state on the error path). -/
theorem restore_to_version_spec (s : KBState) (articleId : String) (n : Nat)
    (u : User) (now : Nat) (a : Article) (v : ArticleVersion)
    (hfind : findArticle s.articles articleId = some a)
    (hperm : ((hasPermission u .articleVersionRestoreOwn && a.authorId == u.id)
        || hasPermission u .articleVersionRestoreAll) = true)
    (hv : getVersionRec s.versions articleId n = some v) :
    (n = a.version →
      VersionService.restoreVersion s articleId n u now =
        .error (.badRequest "Cannot restore to current version"))
    ∧ (n ≠ a.version → ∃ s' newSnap restored,
        VersionService.restoreVersion s articleId n u now = .ok (s', newSnap)
        ∧ findArticle s'.articles articleId = some restored
        ∧ restored.briefTitle = v.briefTitle
        ∧ restored.detailedDescription = v.detailedDescription
        ∧ restored.category = v.category
        ∧ restored.tags = v.tags
        ∧ restored.relatedArticles = v.relatedArticles
        ∧ restored.status = a.status
        ∧ restored.version = a.version + 1
        ∧ a.version < restored.version
        ∧ newSnap.version = restored.version
        ∧ newSnap.changeReason = some ("Restored from version " ++ toString n)
        ∧ newSnap ∈ s'.versions) := by
  have hcond : (!(hasPermission u .articleVersionRestoreOwn && a.authorId == u.id) &&
      !hasPermission u .articleVersionRestoreAll) = false := by
    rw [← Bool.not_or, hperm]
    rfl
  constructor
  · intro hcur
    unfold VersionService.restoreVersion
    rw [hfind]
    dsimp only
    rw [hcond]
    simp only [Bool.false_eq_true, if_false]
    rw [hv]
    dsimp only
    rw [if_pos (by simpa using hcur.symm ▸ rfl)]
  · intro hne
    unfold VersionService.restoreVersion
    rw [hfind]
    dsimp only
    rw [hcond]
    simp only [Bool.false_eq_true, if_false]
    rw [hv]
    dsimp only
    rw [if_neg (by simpa using hne)]
    obtain ⟨updated, hupd, hid', hver', hstat', hauth', hbt', hdd', hcat', htag', hrel', _⟩ :=
      repo_update_spec s articleId
        { briefTitle := some v.briefTitle
          detailedDescription := some v.detailedDescription
          category := some v.category
          tags := some v.tags
          relatedArticles := some v.relatedArticles } now a hfind
    rw [hupd]
    dsimp only [FileVersionRepository.createVersion]
    refine ⟨_, _, updated, rfl, ?_, by simpa using hbt', by simpa using hdd',
      by simpa using hcat', by simpa using htag', by simpa using hrel',
      by simpa using hstat', hver', by omega, rfl, rfl, ?_⟩
    · dsimp only
      rw [findArticle_putArticle, if_pos hid']
    · dsimp only
      exact mem_putVersion_self s.versions _

/-- C4 witness: restoring the two-version sample article to version one
copies the old content fields and produces version three. -/
theorem restore_to_version_spec_witness :
    ∃ s' newSnap restored,
      VersionService.restoreVersion Sample.sV2 "a3" 1 Sample.authorU 50 = .ok (s', newSnap)
      ∧ findArticle s'.articles "a3" = some restored
      ∧ restored.briefTitle = Sample.snapV2a.briefTitle
      ∧ restored.detailedDescription = Sample.snapV2a.detailedDescription
      ∧ restored.category = Sample.snapV2a.category
      ∧ restored.tags = Sample.snapV2a.tags
      ∧ restored.relatedArticles = Sample.snapV2a.relatedArticles
      ∧ restored.status = Sample.artV2.status
      ∧ restored.version = Sample.artV2.version + 1
      ∧ Sample.artV2.version < restored.version
      ∧ newSnap.version = restored.version
      ∧ newSnap.changeReason = some ("Restored from version " ++ toString 1)
      ∧ newSnap ∈ s'.versions :=
  (restore_to_version_spec Sample.sV2 "a3" 1 Sample.authorU 50 Sample.artV2
    Sample.snapV2a (by decide) (by decide) (by decide)).2 (by decide)

/-- C5 counterexample: createVersion invoked while a record for the
same (articleId, versionNumber) key already exists succeeds and leaves
the new snapshot as the stored record in place of the old one. -/
theorem createVersion_overwrite_cex :
    getVersionRec Sample.s0.versions "a1" 1 = some Sample.snap1
    ∧ (FileVersionRepository.createVersion Sample.s0
        { Sample.art1 with briefTitle := "Changed title" }
        "author-001" "Author User" 9 none).1.versions =
      [createVersionFromArticle { Sample.art1 with briefTitle := "Changed title" }
        "author-001" "Author User" 9 none]
    ∧ createVersionFromArticle { Sample.art1 with briefTitle := "Changed title" }
        "author-001" "Author User" 9 none ≠ Sample.snap1 := by
  decide

/-- C5 amended: createVersion performs no duplicate-key detection: it
always succeeds, and afterwards the keyed lookup for the written
(articleId, version) pair yields the fresh snapshot, silently replacing
any record previously stored under that key. -/
theorem createVersion_silently_replaces (s : KBState) (article : Article)
    (changedBy changedByName : String) (now : Nat) (changeReason : Option String) :
    (FileVersionRepository.createVersion s article changedBy changedByName
        now changeReason).2
      = createVersionFromArticle article changedBy changedByName now changeReason
    ∧ getVersionRec (FileVersionRepository.createVersion s article changedBy
        changedByName now changeReason).1.versions article.id article.version
      = some (createVersionFromArticle article changedBy changedByName now changeReason) := by
  refine ⟨rfl, ?_⟩
  dsimp only [FileVersionRepository.createVersion]
  rw [getVersionRec_putVersion, if_pos ⟨rfl, rfl⟩]

/-- C6: publish succeeds only from draft status, every other status
being rejected as bad input before any permission check, and on success
sets status published, fills publishedAt only when previously unset,
bumps the version and snapshots; archive succeeds only from published
status, rejecting drafts and every other status, setting status
archived and snapshotting. -/
theorem publish_archive_status_gate (s : KBState) (id : String) (u : User)
    (now : Nat) (a : Article)
    (hfind : findArticle s.articles id = some a) :
    (a.status ≠ .draft →
      ArticleService.publish s id u now =
        .error (.badRequest "Only draft articles can be published"))
    ∧ (a.status = .draft →
        ((hasPermission u .articlePublishOwn && a.authorId == u.id)
          || hasPermission u .articlePublishAll) = true →
        ∃ s' art, ArticleService.publish s id u now = .ok (s', art)
          ∧ art.status = .published
          ∧ (a.publishedAt = none → art.publishedAt = some now)
          ∧ (∀ t, a.publishedAt = some t → art.publishedAt = some t)
          ∧ art.version = a.version + 1
          ∧ createVersionFromArticle art u.id u.displayName now (some "Published")
              ∈ s'.versions)
    ∧ (hasPermission u .articleArchive = true → a.status ≠ .published →
        ArticleService.archive s id u now =
          .error (.badRequest "Only published articles can be archived"))
    ∧ (hasPermission u .articleArchive = true → a.status = .published →
        ∃ s' art, ArticleService.archive s id u now = .ok (s', art)
          ∧ art.status = .archived
          ∧ art.version = a.version + 1
          ∧ createVersionFromArticle art u.id u.displayName now (some "Archived")
              ∈ s'.versions) := by
  refine ⟨?_, ?_, ?_, ?_⟩
  · intro hst
    unfold ArticleService.publish
    rw [hfind]
    dsimp only
    rw [if_pos hst]
  · intro hst hperm
    have hcond : (!(hasPermission u .articlePublishOwn && a.authorId == u.id) &&
        !hasPermission u .articlePublishAll) = false := by
      rw [← Bool.not_or, hperm]
      rfl
    unfold ArticleService.publish
    rw [hfind]
    dsimp only
    rw [if_neg (by simp [hst])]
    rw [hcond]
    simp only [Bool.false_eq_true, if_false]
    obtain ⟨updated, hupd, hid', hver', hstat', hauth', hbt', hdd', hcat', htag',
      hrel', hpub'⟩ := repo_update_spec s id { status := some .published } now a hfind
    rw [hupd]
    dsimp only [FileVersionRepository.createVersion]
    refine ⟨_, _, rfl, by simpa using hstat', ?_, ?_, hver', ?_⟩
    · intro hnone
      rw [hpub', if_pos ⟨rfl, hnone⟩]
    · intro t ht
      rw [hpub', if_neg (by simp [ht])]
      exact ht
    · dsimp only
      exact mem_putVersion_self s.versions _
  · intro hperm hst
    unfold ArticleService.archive
    rw [if_neg (by simp [hperm])]
    rw [hfind]
    dsimp only
    rw [if_pos hst]
  · intro hperm hst
    unfold ArticleService.archive
    rw [if_neg (by simp [hperm])]
    rw [hfind]
    dsimp only
    rw [if_neg (by simp [hst])]
    obtain ⟨updated, hupd, hid', hver', hstat', _⟩ :=
      repo_update_spec s id { status := some .archived } now a hfind
    rw [hupd]
    dsimp only [FileVersionRepository.createVersion]
    refine ⟨_, _, rfl, by simpa using hstat', hver', ?_⟩
    dsimp only
    exact mem_putVersion_self s.versions _

/-- C6 witness: publishing the sample draft succeeds with publishedAt
stamped and the version bumped, while archiving the same draft is
rejected as bad input. -/
theorem publish_archive_status_gate_witness :
    (∃ s' art, ArticleService.publish Sample.s0 "a1" Sample.authorU 50 = .ok (s', art)
      ∧ art.status = .published
      ∧ (Sample.art1.publishedAt = none → art.publishedAt = some 50)
      ∧ (∀ t, Sample.art1.publishedAt = some t → art.publishedAt = some t)
      ∧ art.version = Sample.art1.version + 1
      ∧ createVersionFromArticle art Sample.authorU.id Sample.authorU.displayName 50
          (some "Published") ∈ s'.versions)
    ∧ ArticleService.archive Sample.s0 "a1" Sample.editorU 50 =
        .error (.badRequest "Only published articles can be archived") := by
  constructor
  · exact (publish_archive_status_gate Sample.s0 "a1" Sample.authorU 50 Sample.art1
      (by decide)).2.1 (by decide) (by decide)
  · exact (publish_archive_status_gate Sample.s0 "a1" Sample.editorU 50 Sample.art1
      (by decide)).2.2.1 (by decide) (by decide)

/-- C7: soft delete of a non-deleted article sets status deleted and
decrements the category count by one, restore sets status draft and
increments the count back by one, so the delete-then-restore round trip
returns the category record to its exact prior value. The count is at
least one beforehand, as the documented count invariant guarantees for
the category of a stored non-deleted article. -/
theorem delete_restore_category_roundtrip (s : KBState) (id : String) (u : User)
    (now now2 : Nat) (a : Article) (c : Category)
    (hfind : findArticle s.articles id = some a)
    (_hstatus : a.status ≠ .deleted)
    (hdel : ((hasPermission u .articleDeleteOwn && a.authorId == u.id)
        || hasPermission u .articleDeleteAll) = true)
    (hres : ((hasPermission u .articleRestoreOwn && a.authorId == u.id)
        || hasPermission u .articleRestoreAll) = true)
    (hcat : findCategory s.categories a.category = some c)
    (hcount : 1 ≤ c.articleCount) :
    ∃ s1 d s2 r,
      ArticleService.delete s id u now = .ok (s1, d)
      ∧ d.status = .deleted
      ∧ findCategory s1.categories a.category =
          some { c with articleCount := c.articleCount - 1 }
      ∧ ArticleService.restore s1 id u now2 = .ok (s2, r)
      ∧ r.status = .draft
      ∧ findCategory s2.categories a.category = some c := by
  obtain ⟨s1, d, hdelrun, hdstat, hdcat, hdauth, hdfind, hdcats⟩ :=
    delete_success s id u now a hfind hdel
  have hres' : ((hasPermission u .articleRestoreOwn && d.authorId == u.id)
      || hasPermission u .articleRestoreAll) = true := by
    rw [hdauth]
    exact hres
  obtain ⟨s2, r, hresrun, hrstat, hrcat, hrcats⟩ :=
    restore_success s1 id u now2 d hdfind hdstat hres'
  have h1 := findCategory_updateArticleCount s.categories a.category (-1) c hcat
  refine ⟨s1, d, s2, r, hdelrun, hdstat, ?_, hresrun, hrstat, ?_⟩
  · rw [hdcats, h1]
    have hm : max 0 (c.articleCount + -1) = c.articleCount - 1 := by omega
    rw [hm]
  · rw [hrcats, hdcat, hdcats]
    have h2 := findCategory_updateArticleCount
      (FileCategoryRepository.updateArticleCount s.categories a.category (-1))
      a.category 1 _ h1
    rw [h2]
    have hm : max 0 (max 0 (c.articleCount + -1) + 1) = c.articleCount := by omega
    rw [hm]

/-- C7 witness: the round trip on the sample state returns the Network
category to count one. -/
theorem delete_restore_category_roundtrip_witness :
    ∃ s1 d s2 r,
      ArticleService.delete Sample.s0 "a1" Sample.authorU 60 = .ok (s1, d)
      ∧ d.status = .deleted
      ∧ findCategory s1.categories Sample.art1.category =
          some { Sample.cat1 with articleCount := Sample.cat1.articleCount - 1 }
      ∧ ArticleService.restore s1 "a1" Sample.authorU 70 = .ok (s2, r)
      ∧ r.status = .draft
      ∧ findCategory s2.categories Sample.art1.category = some Sample.cat1 :=
  delete_restore_category_roundtrip Sample.s0 "a1" Sample.authorU 60 70
    Sample.art1 Sample.cat1 (by decide) (by decide) (by decide) (by decide)
    (by decide) (by decide)

/-- C9: updateArticleCount stores max(0, current + delta), so counts
never go negative and a decrement applied at zero is silently
discarded; a missing category name leaves the store unchanged and does
not fail. -/
theorem update_article_count_clamps (cats : List Category) (name : String)
    (delta : Int) :
    (findCategory cats name = none →
      FileCategoryRepository.updateArticleCount cats name delta = cats)
    ∧ (∀ c, findCategory cats name = some c →
        findCategory (FileCategoryRepository.updateArticleCount cats name delta) name =
          some { c with articleCount := max 0 (c.articleCount + delta) }
        ∧ (0 : Int) ≤ max 0 (c.articleCount + delta)
        ∧ (c.articleCount + delta ≤ 0 → max 0 (c.articleCount + delta) = 0)) := by
  refine ⟨findCategory_updateArticleCount_none cats name delta, ?_⟩
  intro c hc
  exact ⟨findCategory_updateArticleCount cats name delta c hc,
    le_max_left 0 _, fun h => by omega⟩

/-- C10: the create endpoint schema admits exactly draft and published
as the caller-supplied initial status; the repository create defaults a
missing status to draft with no publication timestamp, and a supplied
published status persists the article directly as published with
publishedAt equal to the creation time, always at version one. -/
theorem create_initial_status_spec (s : KBState) (input : ArticleInput)
    (newId authorId authorName : String) (now : Nat) :
    (ArticleStatus.draft ∈ createStatusEnum
      ∧ ArticleStatus.published ∈ createStatusEnum
      ∧ ArticleStatus.archived ∉ createStatusEnum
      ∧ ArticleStatus.deleted ∉ createStatusEnum)
    ∧ (input.status = none →
        (FileArticleRepository.create s input newId authorId authorName now).2.status
          = .draft
        ∧ (FileArticleRepository.create s input newId authorId authorName now).2.publishedAt
          = none)
    ∧ (input.status = some .draft →
        (FileArticleRepository.create s input newId authorId authorName now).2.status
          = .draft
        ∧ (FileArticleRepository.create s input newId authorId authorName now).2.publishedAt
          = none)
    ∧ (input.status = some .published →
        (FileArticleRepository.create s input newId authorId authorName now).2.status
          = .published
        ∧ (FileArticleRepository.create s input newId authorId authorName now).2.publishedAt
          = some now)
    ∧ (FileArticleRepository.create s input newId authorId authorName now).2.version = 1 := by
  refine ⟨by decide, ?_, ?_, ?_, rfl⟩
  · intro h
    constructor <;> simp [FileArticleRepository.create, h]
  · intro h
    constructor <;> simp [FileArticleRepository.create, h]
  · intro h
    constructor <;> simp [FileArticleRepository.create, h]

/-- C8: the permission matrix. A reader can neither create, edit nor
delete articles nor add comments; an actor can comment on a published
article but cannot create articles; an author passes the edit, delete,
publish and restore checks exactly on own articles, foreign ones being
rejected as forbidden; an editor passes those checks on any article,
can update any unlocked article, and can force-release a live lock held
by another user. -/
theorem permission_matrix :
    (∀ u : User, u.role = .reader →
      (∀ s input newId now, ArticleService.create s input u newId now =
        .error (.forbidden "You do not have permission to create articles"))
      ∧ (∀ s id input reason now a, findArticle s.articles id = some a →
          ArticleService.update s id input u reason now =
            .error (.forbidden "You do not have permission to edit this article"))
      ∧ (∀ s id now a, findArticle s.articles id = some a →
          ArticleService.delete s id u now =
            .error (.forbidden "You do not have permission to delete this article"))
      ∧ (∀ s articleId content newId now,
          CommentService.create s articleId content u newId now =
            .error (.forbidden "You do not have permission to add comments")))
    ∧ (∀ u : User, u.role = .actor →
      (∀ s articleId content newId now a, findArticle s.articles articleId = some a →
          a.status = .published → validateCommentInput content = [] →
          ∃ c, CommentService.create s articleId content u newId now =
            .ok ({ s with comments := s.comments ++ [c] }, c)
            ∧ c.authorId = u.id ∧ c.content = jsTrim content)
      ∧ (∀ s input newId now, ArticleService.create s input u newId now =
          .error (.forbidden "You do not have permission to create articles")))
    ∧ (∀ u : User, u.role = .author → ∀ s id (a : Article),
        findArticle s.articles id = some a →
        (a.authorId ≠ u.id →
          (∀ input reason now, ArticleService.update s id input u reason now =
            .error (.forbidden "You do not have permission to edit this article"))
          ∧ (∀ now, ArticleService.delete s id u now =
              .error (.forbidden "You do not have permission to delete this article"))
          ∧ (∀ now, a.status = .draft → ArticleService.publish s id u now =
              .error (.forbidden "You do not have permission to publish this article"))
          ∧ (∀ now, a.status = .deleted → ArticleService.restore s id u now =
              .error (.forbidden "You do not have permission to restore this article")))
        ∧ (a.authorId = u.id →
          ((hasPermission u .articleEditOwn && a.authorId == u.id)
            || hasPermission u .articleEditAll) = true
          ∧ ((hasPermission u .articleDeleteOwn && a.authorId == u.id)
            || hasPermission u .articleDeleteAll) = true
          ∧ ((hasPermission u .articlePublishOwn && a.authorId == u.id)
            || hasPermission u .articlePublishAll) = true
          ∧ ((hasPermission u .articleRestoreOwn && a.authorId == u.id)
            || hasPermission u .articleRestoreAll) = true
          ∧ (∀ reason now, loadLock s.locks id = none →
              ∃ s' art, ArticleService.update s id {} u reason now = .ok (s', art))))
    ∧ (∀ u : User, u.role = .editor →
      (hasPermission u .articleEditAll = true
        ∧ hasPermission u .articleDeleteAll = true
        ∧ hasPermission u .articlePublishAll = true
        ∧ hasPermission u .articleRestoreAll = true
        ∧ hasPermission u .articleArchive = true)
      ∧ (∀ s id a reason now, findArticle s.articles id = some a →
          loadLock s.locks id = none →
          ∃ s' art, ArticleService.update s id {} u reason now = .ok (s', art))
      ∧ (∀ s id (l : ArticleLock) now, findArticle s.articles id ≠ none →
          loadLock s.locks id = some l →
          FileLockRepository.isExpired l now = false → l.lockedBy ≠ u.id →
          ∃ s', LockService.releaseLock s id u now = .ok (s', true)
            ∧ loadLock s'.locks id = none)) := by
  have hvempty : validateArticleInput {} false = [] := rfl
  refine ⟨?_, ?_, ?_, ?_⟩
  · intro u hrole
    have hc : hasPermission u .articleCreate = false := by
      rw [hasPermission_of_role u .reader hrole]; decide
    have heo : hasPermission u .articleEditOwn = false := by
      rw [hasPermission_of_role u .reader hrole]; decide
    have hea : hasPermission u .articleEditAll = false := by
      rw [hasPermission_of_role u .reader hrole]; decide
    have hdo : hasPermission u .articleDeleteOwn = false := by
      rw [hasPermission_of_role u .reader hrole]; decide
    have hda : hasPermission u .articleDeleteAll = false := by
      rw [hasPermission_of_role u .reader hrole]; decide
    have hcc : hasPermission u .commentCreate = false := by
      rw [hasPermission_of_role u .reader hrole]; decide
    refine ⟨?_, ?_, ?_, ?_⟩
    · intro s input newId now
      unfold ArticleService.create
      rw [hc]
      simp
    · intro s id input reason now a hfind
      unfold ArticleService.update
      rw [hfind]
      dsimp only
      rw [heo, hea]
      simp
    · intro s id now a hfind
      unfold ArticleService.delete
      rw [hfind]
      dsimp only
      rw [hdo, hda]
      simp
    · intro s articleId content newId now
      unfold CommentService.create
      rw [hcc]
      simp
  · intro u hrole
    have hcc : hasPermission u .commentCreate = true := by
      rw [hasPermission_of_role u .actor hrole]; decide
    have hac : hasPermission u .articleCreate = false := by
      rw [hasPermission_of_role u .actor hrole]; decide
    refine ⟨?_, ?_⟩
    · intro s articleId content newId now a hfind hpub hvalid
      unfold CommentService.create
      rw [hcc]
      simp only [Bool.not_true, Bool.false_eq_true, if_false]
      rw [hfind]
      dsimp only
      rw [if_neg (by simp [hpub]), hvalid]
      simp only [List.isEmpty_nil, Bool.not_true, Bool.false_eq_true, if_false]
      exact ⟨_, rfl, rfl, rfl⟩
    · intro s input newId now
      unfold ArticleService.create
      rw [hac]
      simp
  · intro u hrole s id a hfind
    have heo : hasPermission u .articleEditOwn = true := by
      rw [hasPermission_of_role u .author hrole]; decide
    have hea : hasPermission u .articleEditAll = false := by
      rw [hasPermission_of_role u .author hrole]; decide
    have hdo : hasPermission u .articleDeleteOwn = true := by
      rw [hasPermission_of_role u .author hrole]; decide
    have hda : hasPermission u .articleDeleteAll = false := by
      rw [hasPermission_of_role u .author hrole]; decide
    have hpo : hasPermission u .articlePublishOwn = true := by
      rw [hasPermission_of_role u .author hrole]; decide
    have hpa : hasPermission u .articlePublishAll = false := by
      rw [hasPermission_of_role u .author hrole]; decide
    have hro : hasPermission u .articleRestoreOwn = true := by
      rw [hasPermission_of_role u .author hrole]; decide
    have hra : hasPermission u .articleRestoreAll = false := by
      rw [hasPermission_of_role u .author hrole]; decide
    constructor
    · intro hown
      have hbne : (a.authorId == u.id) = false := by simpa using hown
      refine ⟨?_, ?_, ?_, ?_⟩
      · intro input reason now
        unfold ArticleService.update
        rw [hfind]
        dsimp only
        rw [heo, hea, hbne]
        simp
      · intro now
        unfold ArticleService.delete
        rw [hfind]
        dsimp only
        rw [hdo, hda, hbne]
        simp
      · intro now hdraft
        unfold ArticleService.publish
        rw [hfind]
        dsimp only
        rw [if_neg (by simp [hdraft])]
        rw [hpo, hpa, hbne]
        simp
      · intro now hdel2
        unfold ArticleService.restore
        rw [hfind]
        dsimp only
        rw [if_neg (by simp [hdel2])]
        rw [hro, hra, hbne]
        simp
    · intro hown
      have hbeq : (a.authorId == u.id) = true := by simpa using hown
      refine ⟨by rw [heo, hbeq]; rfl, by rw [hdo, hbeq]; rfl,
        by rw [hpo, hbeq]; rfl, by rw [hro, hbeq]; rfl, ?_⟩
      intro reason now hlock
      unfold ArticleService.update
      rw [hfind]
      dsimp only
      rw [heo, hbeq]
      simp only [Bool.and_self, Bool.not_true, Bool.false_and, Bool.false_eq_true, if_false]
      rw [getLockStatus_none s.locks id u.id now hlock]
      dsimp only
      simp only [Bool.false_and, Bool.false_eq_true, if_false]
      rw [hvempty]
      simp only [List.isEmpty_nil, Bool.not_true, Bool.false_eq_true, if_false]
      obtain ⟨updated, hupd, _⟩ := repo_update_spec s id {} now a hfind
      rw [hupd]
      dsimp only [FileVersionRepository.createVersion]
      exact ⟨_, _, rfl⟩
  · intro u hrole
    have hea : hasPermission u .articleEditAll = true := by
      rw [hasPermission_of_role u .editor hrole]; decide
    have hda : hasPermission u .articleDeleteAll = true := by
      rw [hasPermission_of_role u .editor hrole]; decide
    have hpa : hasPermission u .articlePublishAll = true := by
      rw [hasPermission_of_role u .editor hrole]; decide
    have hra : hasPermission u .articleRestoreAll = true := by
      rw [hasPermission_of_role u .editor hrole]; decide
    have har : hasPermission u .articleArchive = true := by
      rw [hasPermission_of_role u .editor hrole]; decide
    refine ⟨⟨hea, hda, hpa, hra, har⟩, ?_, ?_⟩
    · intro s id a reason now hfind hlock
      unfold ArticleService.update
      rw [hfind]
      dsimp only
      rw [hea]
      simp only [Bool.not_true, Bool.and_false, Bool.false_eq_true, if_false]
      rw [getLockStatus_none s.locks id u.id now hlock]
      dsimp only
      simp only [Bool.false_and, Bool.false_eq_true, if_false]
      rw [hvempty]
      simp only [List.isEmpty_nil, Bool.not_true, Bool.false_eq_true, if_false]
      obtain ⟨updated, hupd, _⟩ := repo_update_spec s id {} now a hfind
      rw [hupd]
      dsimp only [FileVersionRepository.createVersion]
      exact ⟨_, _, rfl⟩
    · intro s id l now hne hlock hexp hown
      unfold LockService.releaseLock
      cases hf : findArticle s.articles id with
      | none => exact absurd hf hne
      | some a0 =>
        dsimp only
        rw [getLockStatus_live s.locks id u.id now l hlock hexp]
        dsimp only
        rw [hea]
        simp only [Bool.not_true, Bool.and_false, Bool.false_eq_true, if_false]
        unfold FileLockRepository.releaseLock
        rw [hlock]
        dsimp only
        simp only [Option.map_some', Option.getD_some, bne_self_eq_false,
          Bool.false_eq_true, if_false]
        refine ⟨_, rfl, ?_⟩
        rw [clearArticleLockInfo_locks]
        exact loadLock_removeLock s.locks id

/-- C8 witness: the actor comments on the published sample article and
the editor force-releases the foreign lock on the sample draft. -/
theorem permission_matrix_witness :
    (∃ c, CommentService.create Sample.sPub "a2" "Nice article" Sample.actorU "c1" 80 =
      .ok ({ Sample.sPub with comments := Sample.sPub.comments ++ [c] }, c)
      ∧ c.authorId = Sample.actorU.id ∧ c.content = jsTrim "Nice article")
    ∧ (∃ s', LockService.releaseLock Sample.s0Locked "a1" Sample.editorU 200 = .ok (s', true)
        ∧ loadLock s'.locks "a1" = none) := by
  constructor
  · exact (permission_matrix.2.1 Sample.actorU rfl).1 Sample.sPub "a2" "Nice article"
      "c1" 80 Sample.artPub (by decide) (by decide) (by decide)
  · exact (permission_matrix.2.2.2 Sample.editorU rfl).2.2 Sample.s0Locked "a1"
      Sample.lockB 200 (by decide) (by decide) (by decide) (by decide)

/-- C3 witness: a live foreign lock blocks acquisition and reports the
holder, while the owner renews successfully. -/
theorem acquire_lock_spec_witness :
    FileLockRepository.acquireLock [Sample.lockB] "a1" "author-001" "Author User" 200 =
      ({ success := false, lock := some Sample.lockB,
         message := "Article is currently being edited by " ++ Sample.lockB.lockedByName },
       [Sample.lockB]) :=
  (acquire_lock_spec [Sample.lockB] "a1" "author-001" "Author User" 200).2.2.2.1
    Sample.lockB (by decide) (by decide) (by decide)

end Nexus
